import Mathlib

/-!
Verification development for the Kinesis repository
(src/src-tauri/bin/kinesis_cli.py and src/src-tauri/bin/manager.py).

The Python code is shallowly embedded: JSON values become the `Json`
inductive; Python dictionary/list operations become total Lean functions
returning `Except` where the Python operation can raise; the network
(InnerTube clients, `requests.get`) is an explicit environment parameter;
the sqlite table becomes a list of rows.  Exception classes that the
Python code catches (`KeyError`, `IndexError`, `TypeError`) are
distinguished from those it does not (`AttributeError`) via `PErr`.
-/

/-- A parsed JSON tree, as produced by `json.loads` / the InnerTube client. -/
inductive Json where
  | null : Json
  | bool (b : Bool) : Json
  | num (n : Int) : Json
  | str (s : String) : Json
  | arr (xs : List Json) : Json
  | obj (kvs : List (String × Json)) : Json

/-- First binding of key `k` in a Python dict, embedded as an assoc list. -/
def jlookup (k : String) : List (String × Json) → Option Json
  | [] => none
  | (k2, v) :: rest => if k2 = k then some v else jlookup k rest

/-- Python truthiness of a JSON value (`if not x` tests). -/
def Json.isFalsy : Json → Bool
  | .null => true
  | .bool b => !b
  | .num n => n = 0
  | .str s => s == ""
  | .arr xs => xs.isEmpty
  | .obj kvs => kvs.isEmpty

def Json.isTruthy (j : Json) : Bool := !j.isFalsy

/-- Truthiness of an optional value (Python `None` is falsy). -/
def optTruthy : Option Json → Bool
  | none => false
  | some j => j.isTruthy

/-- A Python exception: the playlist loop catches `KeyError`, `IndexError`
and `TypeError` (`caught`) but not `AttributeError` (`uncaught`);
`manager.get_video_data` catches every exception. -/
inductive PErr where
  | caught (msg : String) : PErr
  | uncaught (msg : String) : PErr

def PErr.msg : PErr → String
  | .caught m => m
  | .uncaught m => m

/-- `obj.get(k, default)`: requires a dict receiver, otherwise Python
raises `AttributeError`. -/
def pyGet (j : Json) (k : String) (default : Json) : Except PErr Json :=
  match j with
  | .obj kvs =>
    match jlookup k kvs with
    | some v => .ok v
    | none => .ok default
  | _ => .error (.uncaught "AttributeError")

/-- `obj.get(k)` with no default (result `None` when absent). -/
def pyGetOpt (j : Json) (k : String) : Except PErr (Option Json) :=
  match j with
  | .obj kvs => .ok (jlookup k kvs)
  | _ => .error (.uncaught "AttributeError")

/-- Python indexing `x[i]` for a non-negative literal index, as used on the
results of `.get(..., [...])` chains.  Lists raise `IndexError` when too
short, dicts raise `KeyError`, `None`/numbers/booleans raise `TypeError`;
a string yields a one-character string (whose later `.get` then raises). -/
def pyIndex (j : Json) (i : Nat) : Except PErr Json :=
  match j with
  | .arr xs =>
    match xs.getD i .null, decide (i < xs.length) with
    | v, true => .ok v
    | _, false => .error (.caught "IndexError")
  | .obj _ => .error (.caught "KeyError")
  | .str s =>
    match s.toList.getD i ' ', decide (i < s.toList.length) with
    | c, true => .ok (.str (String.mk [c]))
    | _, false => .error (.caught "IndexError")
  | _ => .error (.caught "TypeError")

/-- Python indexing `x[-1]` (last element). -/
def pyIndexLast (j : Json) : Except PErr Json :=
  match j with
  | .arr xs =>
    match xs.getLast? with
    | some v => .ok v
    | none => .error (.caught "IndexError")
  | .obj _ => .error (.caught "KeyError")
  | .str s =>
    match s.toList.getLast? with
    | some c => .ok (.str (String.mk [c]))
    | none => .error (.caught "IndexError")
  | _ => .error (.caught "TypeError")

/-! ### Python string helpers (`in`, `startswith`, `split`) at `List Char` level -/

/-- Python `sub in s` (contiguous substring test). -/
def containsSeq (sep : List Char) : List Char → Bool
  | [] => sep.isEmpty
  | c :: rest => sep.isPrefixOf (c :: rest) || containsSeq sep rest

/-- Fuelled worker for Python `str.split(sep)` with a non-empty separator;
fuel `≥` input length makes it total and structural (hence computable by
the kernel). -/
def pySplitF : Nat → List Char → List Char → List (List Char)
  | _, _, [] => [[]]
  | 0, _, l => [l]
  | fuel+1, sep, c :: rest =>
    if sep.isPrefixOf (c :: rest) ∧ sep ≠ [] then
      [] :: pySplitF fuel sep (List.drop (sep.length - 1) rest)
    else
      match pySplitF fuel sep rest with
      | [] => [[c]]
      | h :: t => (c :: h) :: t

/-- Python `l.split(sep)` for a non-empty `sep`. -/
def pySplitL (sep l : List Char) : List (List Char) := pySplitF l.length sep l

/-- `l.split(sep)[i]` as used by the normalizers (the index is always in
range on the paths the code takes, guarded by `in` checks). -/
def pySplitGet (sep : String) (l : List Char) (i : Nat) : List Char :=
  (pySplitL sep.toList l).getD i []

/-- The prefix of `l` that stops at the first occurrence of `sep`
(the first field of Python `split`). -/
def uptoSep (sep : List Char) : List Char → List Char
  | [] => []
  | c :: rest => if sep.isPrefixOf (c :: rest) ∧ sep ≠ [] then [] else c :: uptoSep sep rest

def pyIn (sub s : String) : Bool := containsSeq sub.toList s.toList

def pyStartsWith (s pre : String) : Bool := pre.toList.isPrefixOf s.toList

/-! ### kinesis_cli.py: identifier normalizers -/

/-- `extract_video_id` (kinesis_cli.py lines 38-44). -/
def extract_video_id (url_or_id : String) : String :=
  if pyIn "v=" url_or_id then
    String.mk (pySplitGet "&" (pySplitGet "v=" url_or_id.toList 1) 0)
  else url_or_id

/-- `extract_playlist_id` (kinesis_cli.py lines 47-53). -/
def extract_playlist_id (url_or_id : String) : String :=
  if pyIn "list=" url_or_id then
    String.mk (pySplitGet "&" (pySplitGet "list=" url_or_id.toList 1) 0)
  else url_or_id

/-- The `split("/")[0].split("?")[0]` tail common to the channel branches. -/
def cutPathQuery (l : List Char) : List Char :=
  pySplitGet "?" (pySplitGet "/" l 0) 0

/-- `extract_channel_id` (kinesis_cli.py lines 56-95).  The handle
resolution step (an HTTP GET of the profile page plus a regex scan,
lines 82-95) is passed in as the `resolve` environment function; it
returns `none` on any network failure or absent pattern. -/
def extract_channel_id (resolve : String → Option String) (url_or_handle : String) : Option String :=
  if pyStartsWith url_or_handle "UC" && url_or_handle.toList.length == 24 then
    some url_or_handle
  else if pyIn "youtube.com/channel/" url_or_handle then
    some (String.mk (cutPathQuery (pySplitGet "youtube.com/channel/" url_or_handle.toList 1)))
  else
    let handle : String :=
      if pyIn "youtube.com/@" url_or_handle then
        String.mk (cutPathQuery (pySplitGet "youtube.com/@" url_or_handle.toList 1))
      else if pyStartsWith url_or_handle "@" then
        String.mk (url_or_handle.toList.drop 1)
      else if pyIn "youtube.com/c/" url_or_handle then
        String.mk (cutPathQuery (pySplitGet "youtube.com/c/" url_or_handle.toList 1))
      else if pyIn "youtube.com/" url_or_handle && !(pyIn "/channel/" url_or_handle) then
        String.mk (cutPathQuery (pySplitGet "youtube.com/" url_or_handle.toList 1))
      else url_or_handle
    resolve handle

/-- `channel_id_to_uploads_playlist` (kinesis_cli.py lines 98-104). -/
def channel_id_to_uploads_playlist (channel_id : String) : String :=
  if pyStartsWith channel_id "UC" then
    String.mk ('U' :: 'U' :: channel_id.toList.drop 2)
  else channel_id

/-! ### kinesis_cli.py: transcript extraction (lines 107-171) -/

/-- A parsed XML element, as produced by `xml.etree.ElementTree.fromstring`:
tag, text before the first child, and child elements in document order. -/
inductive Xml where
  | elem (tag : String) (text : Option String) (children : List Xml)

def Xml.tag : Xml → String
  | .elem t _ _ => t

def Xml.text : Xml → Option String
  | .elem _ tx _ => tx

def Xml.children : Xml → List Xml
  | .elem _ _ cs => cs

mutual
/-- `root.findall(".//p")`: every descendant element with tag `p`, in
document order (an element before its own descendants). -/
def findAllP : Xml → List Xml
  | .elem _ _ children => findAllPList children

def findAllPList : List Xml → List Xml
  | [] => []
  | x :: rest => (if Xml.tag x = "p" then [x] else []) ++ findAllP x ++ findAllPList rest
end

/-- One line of the XML fallback: the trimmed texts of the direct `s`
children that have truthy text, joined with single spaces; `none` when
there is no such segment (the paragraph is skipped). -/
def paraLine (p : Xml) : Option String :=
  let segs := (Xml.children p).filter (fun s => Xml.tag s = "s")
  let texts := segs.filterMap (fun s =>
    match Xml.text s with
    | some t => if t == "" then none else some t.trim
    | none => none)
  if texts.isEmpty then none else some (String.intercalate " " texts)

/-- The line list the XML fallback tier appends (lines 162-166). -/
def xmlLines (root : Xml) : List String :=
  (findAllP root).filterMap paraLine

mutual
/-- `_collect_text` (lines 143-154): depth-first traversal appending every
string found under a `text` key of a mapping, the mapping's own `text`
before its values, values in insertion order. -/
def collectText : Json → List String
  | .obj kvs =>
    (match jlookup "text" kvs with
     | some (.str s) => [s]
     | _ => []) ++ collectKVs kvs
  | .arr xs => collectArr xs
  | _ => []

def collectKVs : List (String × Json) → List String
  | [] => []
  | (_, v) :: rest => collectText v ++ collectKVs rest

def collectArr : List Json → List String
  | [] => []
  | x :: rest => collectText x ++ collectArr rest
end

/-- Outcome of `requests.get` on a caption URL: both exception classes the
code catches, or the response text.  The text is carried in parsed form:
what `json.loads` yields on it (if it parses as JSON) and what
`ET.fromstring` yields (if it parses as XML). -/
inductive FetchErr where
  | timeout : FetchErr
  | failure (msg : String) : FetchErr

structure Body where
  asJson : Option Json
  asXml : Option Xml

/-- The XML fallback tier (lines 160-171): parse failure or an empty line
list both yield `none`. -/
def xmlFallback (body : Body) : Option (List String) :=
  match body.asXml with
  | some root =>
    let ls := xmlLines root
    if ls.isEmpty then none else some ls
  | none => none

/-- Lines 137-171: JSON tier first, returned immediately when non-empty;
otherwise the XML fallback on the same response text. -/
def bodyLines (body : Body) : Option (List String) :=
  match body.asJson with
  | some j =>
    let ls := collectText j
    if ls.isEmpty then xmlFallback body else some ls
  | none => xmlFallback body

/-- Lines 112-115: the caption-track list,
`player_json.get("captions", {}).get("playerCaptionsTracklistRenderer", {}).get("captionTracks", [])`. -/
def getCaptionTracks (player_json : Json) : Except PErr Json := do
  let captions ← pyGet player_json "captions" (.obj [])
  let pctr ← pyGet captions "playerCaptionsTracklistRenderer" (.obj [])
  pyGet pctr "captionTracks" (.arr [])

/-- One step of the line-120 comprehension:
`t.get("languageCode", "").startswith("en")`. -/
def enFlag (t : Json) : Except PErr (Json × Bool) := do
  let lc ← pyGet t "languageCode" (.str "")
  match lc with
  | .str s => .ok (t, pyStartsWith s "en")
  | _ => .error (.uncaught "AttributeError")

def flagTracks : List Json → Except PErr (List (Json × Bool))
  | [] => .ok []
  | t :: rest => do
    let f ← enFlag t
    let fs ← flagTracks rest
    .ok (f :: fs)

/-- Line 121: `en_tracks[0] if en_tracks else caption_tracks[0]`. -/
def selectTrack (ts : List Json) (flagged : List (Json × Bool)) : Json :=
  match (flagged.filter (fun p => p.2)).map (fun p => p.1) with
  | t :: _ => t
  | [] => ts.headD .null

/-- Lines 127-171 after a base URL is known: one HTTP request; timeout and
other request failures both yield `none` (reported distinctly on stderr),
a body is parsed by the two tiers.  The second component counts HTTP
requests actually issued. -/
def fetchAndParse (httpGet : String → Except FetchErr Body) (u : String) :
    Except PErr (Option (List String)) × Nat :=
  match httpGet u with
  | .error _ => (.ok none, 1)
  | .ok body => (.ok (bodyLines body), 1)

/-- `extract_transcript` (kinesis_cli.py lines 107-171).  The `requests`
call is the `httpGet` environment function.  The `Nat` component counts
HTTP requests issued.  A non-list truthy `captionTracks` value makes the
line-120 comprehension raise (`AttributeError` when iteration yields
non-dict elements, `TypeError` when the value is not iterable); a truthy
non-string base URL makes `requests.get` raise `MissingSchema`, a
`RequestException` the code catches, so it yields `none` without I/O. -/
def extract_transcript (httpGet : String → Except FetchErr Body) (player_json : Json) :
    Except PErr (Option (List String)) × Nat :=
  match getCaptionTracks player_json with
  | .error e => (.error e, 0)
  | .ok cts =>
    if cts.isFalsy then (.ok none, 0)
    else
      match cts with
      | .arr ts =>
        match flagTracks ts with
        | .error e => (.error e, 0)
        | .ok flagged =>
          let track := selectTrack ts flagged
          match pyGetOpt track "baseUrl" with
          | .error e => (.error e, 0)
          | .ok burl =>
            if !optTruthy burl then (.ok none, 0)
            else
              match burl with
              | some (.str u) => fetchAndParse httpGet u
              | _ => (.ok none, 0)
      | .obj _ => (.error (.uncaught "AttributeError"), 0)
      | .str _ => (.error (.uncaught "AttributeError"), 0)
      | _ => (.error (.caught "TypeError"), 0)

/-! ### kinesis_cli.py: `extract_video_basic_info` (lines 207-239) -/

/-- `renderer.get("title", {}).get("runs", [{}])[0].get("text")`. -/
def titleOf (renderer : Json) : Except PErr (Option Json) := do
  let t1 ← pyGet renderer "title" (.obj [])
  let t2 ← pyGet t1 "runs" (.arr [.obj []])
  let t3 ← pyIndex t2 0
  pyGetOpt t3 "text"

/-- Lines 215-216: `thumbs[-1].get("url") if thumbs else ""`. -/
def thumbnailOf (renderer : Json) : Except PErr (Option Json) := do
  let th1 ← pyGet renderer "thumbnail" (.obj [])
  let thumbs ← pyGet th1 "thumbnails" (.arr [])
  if thumbs.isTruthy then do
    let lastThumb ← pyIndexLast thumbs
    pyGetOpt lastThumb "url"
  else
    .ok (some (.str ""))

/-- Line 219: `renderer.get("publishedTimeText", {}).get("simpleText", "")`. -/
def publishedOf (renderer : Json) : Except PErr Json := do
  let p1 ← pyGet renderer "publishedTimeText" (.obj [])
  pyGet p1 "simpleText" (.str "")

/-- The line-227 comprehension `[r.get("text", "") for r in runs]`
(fully evaluated before the join, matching Python evaluation order). -/
def runTexts : List Json → Except PErr (List Json)
  | [] => .ok []
  | r :: rest => do
    let t ← pyGet r "text" (.str "")
    let ts ← runTexts rest
    .ok (t :: ts)

/-- `"".join(values)`: every element must be a string, else `TypeError`. -/
def pyJoin : List Json → Except PErr String
  | [] => .ok ""
  | .str s :: rest => do
    let r ← pyJoin rest
    .ok (s ++ r)
  | _ :: _ => .error (.caught "TypeError")

/-- Lines 222-227: `simpleText`, with the runs-concatenation fallback when
that is falsy. -/
def viewCountOf (renderer : Json) : Except PErr Json := do
  let v1 ← pyGet renderer "viewCountText" (.obj [])
  let vc ← pyGet v1 "simpleText" (.str "")
  if vc.isTruthy then .ok vc
  else do
    let v2 ← pyGet renderer "viewCountText" (.obj [])
    let runs ← pyGet v2 "runs" (.arr [])
    if runs.isTruthy then
      match runs with
      | .arr rs => do
        let ts ← runTexts rs
        let s ← pyJoin ts
        .ok (.str s)
      | .obj _ => .error (.uncaught "AttributeError")
      | .str _ => .error (.uncaught "AttributeError")
      | _ => .error (.caught "TypeError")
    else .ok vc

/-- Line 230: `renderer.get("ownerText", {}).get("runs", [{}])[0].get("text", "")`. -/
def authorOf (renderer : Json) : Except PErr Json := do
  let o1 ← pyGet renderer "ownerText" (.obj [])
  let o2 ← pyGet o1 "runs" (.arr [.obj []])
  let o3 ← pyIndex o2 0
  pyGet o3 "text" (.str "")

/-- A Python value that may be `None`, as stored in a dict (`None` ↦ `null`). -/
def jsonOfOpt : Option Json → Json
  | none => .null
  | some j => j

/-- `extract_video_basic_info` (lines 207-239): `none` when `videoId` is
absent or falsy, otherwise the six-field record dict, each field computed
in source order. -/
def extract_video_basic_info (renderer : Json) : Except PErr (Option Json) := do
  let video_id ← pyGetOpt renderer "videoId"
  if !optTruthy video_id then .ok none
  else do
    let title ← titleOf renderer
    let thumbnail ← thumbnailOf renderer
    let published ← publishedOf renderer
    let vc ← viewCountOf renderer
    let owner ← authorOf renderer
    .ok (some (.obj [("id", jsonOfOpt video_id), ("title", jsonOfOpt title),
      ("thumbnail", jsonOfOpt thumbnail), ("publishedAt", published),
      ("viewCount", vc), ("author", owner)]))

/-! ### kinesis_cli.py: `cmd_list_playlist` (lines 242-327) -/

/-- One `WEB_CLIENT.browse` call: either the initial request by browse id
or a continuation request carrying only the token. -/
inductive BrowseReq where
  | initial (browse_id : String)
  | cont (token : Json)

/-- Lines 267-279: the initial-load item chain. -/
def initialItems (data : Json) : Except PErr Json := do
  let c1 ← pyGet data "contents" (.obj [])
  let c2 ← pyGet c1 "twoColumnBrowseResultsRenderer" (.obj [])
  let c3 ← pyGet c2 "tabs" (.arr [.obj []])
  let c4 ← pyIndex c3 0
  let c5 ← pyGet c4 "tabRenderer" (.obj [])
  let c6 ← pyGet c5 "content" (.obj [])
  let c7 ← pyGet c6 "sectionListRenderer" (.obj [])
  let c8 ← pyGet c7 "contents" (.arr [.obj []])
  let c9 ← pyIndex c8 0
  let c10 ← pyGet c9 "itemSectionRenderer" (.obj [])
  let c11 ← pyGet c10 "contents" (.arr [.obj []])
  let c12 ← pyIndex c11 0
  let c13 ← pyGet c12 "playlistVideoListRenderer" (.obj [])
  pyGet c13 "contents" (.arr [])

/-- Lines 282-286: the continuation-page item chain. -/
def contItems (data : Json) : Except PErr Json := do
  let c1 ← pyGet data "onResponseReceivedActions" (.arr [.obj []])
  let c2 ← pyIndex c1 0
  let c3 ← pyGet c2 "appendContinuationItemsAction" (.obj [])
  pyGet c3 "continuationItems" (.arr [])

/-- Lines 308-313: the token of a continuation-marker node (`None`, i.e.
`null`, when the `token` key is absent). -/
def tokenOf (cr : Json) : Except PErr Json := do
  let ce ← pyGet cr "continuationEndpoint" (.obj [])
  let cc ← pyGet ce "continuationCommand" (.obj [])
  let t ← pyGetOpt cc "token"
  .ok (jsonOfOpt t)

/-- Lines 295-313: the per-page `for item in items` loop.  The second
argument is `continuation_token` (reset to `null` before the loop, line
292); video records are emitted in item order; a continuation-marker node
overwrites the token (possibly with `null`).  On an exception the records
already emitted are kept (they were already printed). -/
def processItems : List Json → Json → List Json × Except PErr Json
  | [], tok => ([], .ok tok)
  | item :: rest, tok =>
    match pyGetOpt item "playlistVideoRenderer" with
    | .error e => ([], .error e)
    | .ok vrOpt =>
      let emitStep : Except PErr (List Json) :=
        if optTruthy vrOpt then
          match extract_video_basic_info (jsonOfOpt vrOpt) with
          | .error e => .error e
          | .ok (some rec) => .ok [rec]
          | .ok none => .ok []
        else .ok []
      match emitStep with
      | .error e => ([], .error e)
      | .ok emitted =>
        match pyGetOpt item "continuationItemRenderer" with
        | .error e => (emitted, .error e)
        | .ok crOpt =>
          match (if optTruthy crOpt then tokenOf (jsonOfOpt crOpt) else .ok tok) with
          | .error e => (emitted, .error e)
          | .ok tok2 =>
            let next := processItems rest tok2
            (emitted ++ next.1, next.2)

/-- Iterating the page's `items` value: only reached when truthy; a
non-list value makes the loop body raise. -/
def iterItems (items : Json) : List Json × Except PErr Json :=
  match items with
  | .arr xs => processItems xs .null
  | .obj _ => ([], .error (.uncaught "AttributeError"))
  | .str _ => ([], .error (.uncaught "AttributeError"))
  | _ => ([], .error (.caught "TypeError"))

/-- How a traversal ended: normal exhaustion, a caught parse error
(`break` with a stderr diagnostic, line 325-327), an uncaught exception
(aborts the command), or model fuel exhaustion. -/
inductive LoopEnd where
  | doneNormal
  | parseError (msg : String)
  | crashed (msg : String)
  | fuelOut

/-- The `while True` loop of `cmd_list_playlist` (lines 251-327), fuelled.
State is `continuation_token` (`null` initially, i.e. Python `None`).
Returns the emitted records, the browse requests issued in order, and how
the loop ended. -/
def listLoopF (browse : BrowseReq → Json) : Nat → Json → String → List Json × List BrowseReq × LoopEnd
  | 0, _, _ => ([], [], .fuelOut)
  | fuel+1, tok, playlist_id =>
    let req : BrowseReq :=
      if tok.isTruthy then .cont tok
      else .initial (if pyStartsWith playlist_id "VL" then playlist_id else "VL" ++ playlist_id)
    let data := browse req
    let itemsE := if tok.isTruthy then contItems data else initialItems data
    match itemsE with
    | .error (.caught m) => ([], [req], .parseError m)
    | .error (.uncaught m) => ([], [req], .crashed m)
    | .ok items =>
      if items.isFalsy then ([], [req], .doneNormal)
      else
        match iterItems items with
        | (recs, .error (.caught m)) => (recs, [req], .parseError m)
        | (recs, .error (.uncaught m)) => (recs, [req], .crashed m)
        | (recs, .ok newTok) =>
          if newTok.isFalsy then (recs, [req], .doneNormal)
          else
            let next := listLoopF browse fuel newTok playlist_id
            (recs ++ next.1, req :: next.2.1, next.2.2)

/-- `cmd_list_playlist` (lines 242-327). -/
def cmd_list_playlist (browse : BrowseReq → Json) (fuel : Nat) (input : String) :
    List Json × List BrowseReq × LoopEnd :=
  listLoopF browse fuel .null (extract_playlist_id input)

/-! ### manager.py: the fetch-dedup-and-cache layer -/

/-- One row of the `videos` sqlite table (manager.py lines 15-23).  The
metadata columns hold whatever JSON values `videoDetails` supplied
(possibly `None`); `transcript` is always a string. -/
structure Row where
  video_id : String
  title : Option Json
  author : Option Json
  length_seconds : Option Json
  transcript : String

/-- The `videos` table in insertion order (most recent last). -/
abbrev Db := List Row

/-- The record dict `get_video_data` returns on success. -/
structure VideoData where
  video_id : String
  title : Option Json
  author : Option Json
  length : Option Json
  transcript : String
  status : String

/-- `get_video_data` result: the record dict, or the `{"error": msg}`
shape (manager.py line 159). -/
inductive MgrResult where
  | ok (d : VideoData)
  | err (msg : String)

/-- The manager's external collaborators: `WEB_CLIENT.player`,
`ANDROID_CLIENT.player` (whole-call results, any raised exception as
`.error msg`), and the caption `requests.get`. -/
structure MgrEnv where
  webPlayer : String → Except String Json
  androidPlayer : String → Except String Json
  httpGet : String → Except FetchErr Body

/-- The miss path of `get_video_data` (manager.py lines 117-154 up to the
insert): both player fetches, transcript extraction, and the
`videoDetails` field lookups, in source order; `full_text` falls back to
the sentinel when `lines` is falsy (line 125).  The `Nat` counts network
requests issued.  Any exception surfaces as `.error msg`. -/
def missFetch (env : MgrEnv) (video_id : String) :
    Except String (Option Json × Option Json × Option Json × String) × Nat :=
  match env.webPlayer video_id with
  | .error e => (.error e, 1)
  | .ok player_data =>
    match pyGet player_data "videoDetails" (.obj []) with
    | .error e => (.error e.msg, 1)
    | .ok meta_data =>
      match env.androidPlayer video_id with
      | .error e => (.error e, 2)
      | .ok player_json =>
        match extract_transcript env.httpGet player_json with
        | (.error e, n) => (.error e.msg, 2 + n)
        | (.ok lines, n) =>
          let full_text :=
            match lines with
            | some l => if l.isEmpty then "No transcript available." else String.intercalate "\n" l
            | none => "No transcript available."
          match pyGetOpt meta_data "title" with
          | .error e => (.error e.msg, 2 + n)
          | .ok title =>
            match pyGetOpt meta_data "author" with
            | .error e => (.error e.msg, 2 + n)
            | .ok author =>
              match pyGetOpt meta_data "lengthSeconds" with
              | .error e => (.error e.msg, 2 + n)
              | .ok lengthSeconds =>
                (.ok (title, author, lengthSeconds, full_text), 2 + n)

/-- `get_video_data` (manager.py lines 83-159).  A cache hit returns the
row with status `"exists"` and performs no network request; a miss runs
`missFetch` and, per `save_to_db`, inserts the row (status `"saved"`) or
not (status `"fetched"`); any miss-path exception is returned as
`.err msg` with the table unchanged. -/
def get_video_data (env : MgrEnv) (db : Db) (url_or_id : String) (save_to_db : Bool) :
    MgrResult × Db × Nat :=
  let video_id := extract_video_id url_or_id
  match db.find? (fun r => r.video_id == video_id) with
  | some row =>
    (.ok ⟨row.video_id, row.title, row.author, row.length_seconds, row.transcript, "exists"⟩, db, 0)
  | none =>
    match missFetch env video_id with
    | (.error e, n) => (.err e, db, n)
    | (.ok (title, author, len, full_text), n) =>
      if save_to_db then
        (.ok ⟨video_id, title, author, len, full_text, "saved"⟩,
         db ++ [⟨video_id, title, author, len, full_text⟩], n)
      else
        (.ok ⟨video_id, title, author, len, full_text, "fetched"⟩, db, n)

/-- `ThreadPoolExecutor(max_workers=5)` (manager.py line 72): the fixed
worker-pool ceiling, independent of the input size. -/
def bulk_max_workers : Nat := 5

/-- `bulk_save_videos` (manager.py lines 69-79): one `get_video_data`
per input ID with `save_to_db=True`; the futures list is iterated in
submission order, so results align with the input order; a raised
exception would be appended as an error entry (`get_video_data` itself
returns errors rather than raising).  The bounded pool is modelled as a
linearization of the worker executions in submission order. -/
def bulk_save_videos (env : MgrEnv) (db : Db) (video_ids : List String) : List MgrResult × Db :=
  match video_ids with
  | [] => ([], db)
  | vid :: rest =>
    let step := get_video_data env db vid true
    let next := bulk_save_videos env step.2.1 rest
    (step.1 :: next.1, next.2)

/-! ### Auxiliary definitions used by the theorems -/

def Json.isObjB : Json → Bool
  | .obj _ => true
  | _ => false

/-- Whether the renderer carries a truthy `videoId` (the skip condition of
`extract_video_basic_info`). -/
def hasVid (r : Json) : Bool :=
  match r with
  | .obj kvs => optTruthy (jlookup "videoId" kvs)
  | _ => false

/-- Last element is a dict (for the `thumbs[-1].get` access). -/
def lastIsObj : List Json → Bool
  | [] => true
  | [x] => x.isObjB
  | _ :: rest => lastIsObj rest

/-- A run element tolerated by `"".join([r.get("text", "") for r in runs])`:
a dict whose `text`, when present, is a string. -/
def runOk (r : Json) : Bool :=
  match r with
  | .obj rkvs =>
    match jlookup "text" rkvs with
    | none => true
    | some (.str _) => true
    | some _ => false
  | _ => false

/-- The `title` field shape `titleOf` dereferences without raising. -/
def titleShape (kvs : List (String × Json)) : Bool :=
  match jlookup "title" kvs with
  | none => true
  | some (.obj tkvs) =>
    (match jlookup "runs" tkvs with
     | none => true
     | some (.arr (x :: _)) => x.isObjB
     | some _ => false)
  | some _ => false

/-- The `thumbnail` field shape `thumbnailOf` dereferences without raising. -/
def thumbShape (kvs : List (String × Json)) : Bool :=
  match jlookup "thumbnail" kvs with
  | none => true
  | some (.obj hkvs) =>
    (match jlookup "thumbnails" hkvs with
     | none => true
     | some (.arr xs) => lastIsObj xs
     | some _ => false)
  | some _ => false

/-- The `publishedTimeText` field shape `publishedOf` dereferences. -/
def pubShape (kvs : List (String × Json)) : Bool :=
  match jlookup "publishedTimeText" kvs with
  | none => true
  | some (.obj _) => true
  | some _ => false

/-- The `viewCountText` field shape `viewCountOf` dereferences. -/
def viewShape (kvs : List (String × Json)) : Bool :=
  match jlookup "viewCountText" kvs with
  | none => true
  | some (.obj vkvs) =>
    (match jlookup "runs" vkvs with
     | none => true
     | some (.arr rs) => rs.all runOk
     | some _ => false)
  | some _ => false

/-- The `ownerText` field shape `authorOf` dereferences. -/
def ownerShape (kvs : List (String × Json)) : Bool :=
  match jlookup "ownerText" kvs with
  | none => true
  | some (.obj okvs) =>
    (match jlookup "runs" okvs with
     | none => true
     | some (.arr (x :: _)) => x.isObjB
     | some _ => false)
  | some _ => false

/-- Shape condition under which `extract_video_basic_info` cannot raise:
the input is a dict and each present field has the renderer shape the code
dereferences (absence is tolerated at every level). -/
def wellShaped (r : Json) : Bool :=
  match r with
  | .obj kvs =>
    titleShape kvs && thumbShape kvs && pubShape kvs && viewShape kvs && ownerShape kvs
  | _ => false

/-- A caption track the line-120 comprehension tolerates: a dict whose
`languageCode`, when present, is a string. -/
def trackOk (t : Json) : Bool :=
  match t with
  | .obj kvs =>
    match jlookup "languageCode" kvs with
    | none => true
    | some (.str _) => true
    | some _ => false
  | _ => false

/-- Whether a track's `languageCode` begins with `"en"` (absent code
defaults to `""`, which does not). -/
def trackIsEn (t : Json) : Bool :=
  match t with
  | .obj kvs =>
    match jlookup "languageCode" kvs with
    | none => false
    | some (.str s) => pyStartsWith s "en"
    | some _ => false
  | _ => false

/-- A playlist page item carrying one video renderer with just an id. -/
def mkVideoItem (vid : String) : Json :=
  .obj [("playlistVideoRenderer", .obj [("videoId", .str vid)])]

/-- A continuation-marker page item carrying a token. -/
def mkContItem (tok : String) : Json :=
  .obj [("continuationItemRenderer", .obj [("continuationEndpoint",
    .obj [("continuationCommand", .obj [("token", .str tok)])])])]

/-- An initial-load browse response whose item list is `items`. -/
def mkInitialPage (items : List Json) : Json :=
  .obj [("contents", .obj [("twoColumnBrowseResultsRenderer", .obj [("tabs", .arr [.obj [("tabRenderer",
    .obj [("content", .obj [("sectionListRenderer", .obj [("contents", .arr [.obj [("itemSectionRenderer",
    .obj [("contents", .arr [.obj [("playlistVideoListRenderer",
    .obj [("contents", .arr items)])]])])]])])])])]])])])]

/-- A continuation browse response whose item list is `items`. -/
def mkContPage (items : List Json) : Json :=
  .obj [("onResponseReceivedActions", .arr [.obj [("appendContinuationItemsAction",
    .obj [("continuationItems", .arr items)])]])]

/-- The record `extract_video_basic_info` yields for a renderer holding
only a (truthy) `videoId`. -/
def recOf (vid : String) : Json :=
  .obj [("id", .str vid), ("title", .null), ("thumbnail", .str ""),
    ("publishedAt", .str ""), ("viewCount", .str ""), ("author", .str "")]

/-- A handle resolver whose network lookup always fails. -/
def resolveNone : String → Option String := fun _ => none

/-- Concrete environment whose metadata fetches succeed (empty trees, so
the caption-track list is empty) and whose caption fetch times out. -/
def envPlain : MgrEnv :=
  { webPlayer := fun _ => .ok (.obj [])
    androidPlayer := fun _ => .ok (.obj [])
    httpGet := fun _ => .error .timeout }

/-- Concrete environment whose web-player fetch raises. -/
def envBoom : MgrEnv :=
  { webPlayer := fun _ => .error "boom"
    androidPlayer := fun _ => .ok (.obj [])
    httpGet := fun _ => .error .timeout }

/-- Concrete environment for the bulk scenario: fetching `"B"` fails,
every other ID succeeds. -/
def envBulk : MgrEnv :=
  { webPlayer := fun v => if v = "B" then .error "boom" else .ok (.obj [])
    androidPlayer := fun _ => .ok (.obj [])
    httpGet := fun _ => .error .timeout }

/-- Concrete environment whose caption track serves the JSON body
`{"text": ""}`: a present but empty text segment. -/
def envEmptySeg : MgrEnv :=
  { webPlayer := fun _ => .ok (.obj [("videoDetails", .obj [("title", .str "T")])])
    androidPlayer := fun _ => .ok (.obj [("captions", .obj [("playerCaptionsTracklistRenderer",
      .obj [("captionTracks", .arr [.obj [("languageCode", .str "en"), ("baseUrl", .str "u")]])])])])
    httpGet := fun _ => .ok { asJson := some (.obj [("text", .str "")]), asXml := none } }

/-- Three-page browse environment for the pagination scenario. -/
def browse3 : BrowseReq → Json
  | .initial _ => mkInitialPage [mkVideoItem "a", mkVideoItem "b", mkContItem "t1"]
  | .cont (.str "t1") => mkContPage [mkVideoItem "c", mkContItem "t2"]
  | .cont (.str "t2") => mkContPage [mkVideoItem "d"]
  | .cont _ => .obj []
/-! ### Claim theorems -/

theorem find?_append_of_none {p : Row → Bool} {l1 l2 : List Row} (h : l1.find? p = none) :
    (l1 ++ l2).find? p = l2.find? p := by
  induction l1 with
  | nil => rfl
  | cons r rest ih =>
    simp only [List.find?] at h ⊢
    cases hp : p r with
    | true => simp [hp] at h
    | false => simp only [hp] at h ⊢; exact ih h

/-- Claim C9: from a minimal renderer containing only a `videoId`, the tree
extractor yields a record whose `id` is that `videoId` and in which every
optional key (`title`, `thumbnail`, `publishedAt`, `viewCount`, `author`)
is present with an empty value (`null` for `title`, `""` for the rest),
not missing. -/
theorem minimal_renderer_roundtrip :
    extract_video_basic_info (.obj [("videoId", .str "x")]) =
      .ok (some (.obj [("id", .str "x"), ("title", .null), ("thumbnail", .str ""),
        ("publishedAt", .str ""), ("viewCount", .str ""), ("author", .str "")])) := rfl

/-- Claim C8, counterexample: the claim says the tree extractor never
fails on any dictionary-shaped input, but on the dictionary
`{"videoId": "x", "title": "hello"}` the code raises `AttributeError`
(`"hello".get("runs", ...)` on line 212), so the claim as stated is
false. -/
theorem tree_extractor_failure_counterexample :
    extract_video_basic_info (.obj [("videoId", .str "x"), ("title", .str "hello")]) =
      .error (.uncaught "AttributeError") := rfl

/-- Claim C5: for an ID not in the cache, any exception raised during
the miss path of `get_video_data` (network, parse, or lookup failure) is
caught and the call returns the structured error record `{error: msg}`
with the table unchanged; no exception propagates to the caller. -/
theorem get_miss_error_structured (env : MgrEnv) (db : Db) (id : String) (persist : Bool)
    (e : String) (n : Nat)
    (hmiss : db.find? (fun r => r.video_id == extract_video_id id) = none)
    (herr : missFetch env (extract_video_id id) = (.error e, n)) :
    get_video_data env db id persist = (.err e, db, n) := by
  simp only [get_video_data, hmiss, herr]

/-- Witness for C5 at a concrete environment whose web-player fetch
raises `boom`. -/
theorem get_miss_error_structured_witness :
    get_video_data envBoom [] "x" true = (.err "boom", [], 1) :=
  get_miss_error_structured envBoom [] "x" true "boom" 1 rfl rfl

/-- Claim C1: a `get_video_data` call for an ID already present in the
cache returns the cached row with status `"exists"`, performs zero
network requests, and leaves the table unchanged (for every environment,
so the result cannot depend on the network); and after a successful
`get_video_data(id, persist=true)` for a previously uncached ID, a
second call for the same ID returns the same record with status
`"exists"` and zero network requests. -/
theorem get_cache_hit_and_second_get :
    (∀ (env : MgrEnv) (db : Db) (id : String) (persist : Bool) (row : Row),
        db.find? (fun r => r.video_id == extract_video_id id) = some row →
        get_video_data env db id persist =
          (.ok ⟨row.video_id, row.title, row.author, row.length_seconds, row.transcript, "exists"⟩,
           db, 0)) ∧
    (∀ (env : MgrEnv) (db : Db) (id : String) (d : VideoData) (db2 : Db) (n : Nat),
        db.find? (fun r => r.video_id == extract_video_id id) = none →
        get_video_data env db id true = (.ok d, db2, n) →
        get_video_data env db2 id true =
          (.ok ⟨d.video_id, d.title, d.author, d.length, d.transcript, "exists"⟩, db2, 0)) := by
  constructor
  · intro env db id persist row h
    simp only [get_video_data, h]
  · intro env db id d db2 n hnone hfirst
    simp only [get_video_data, hnone] at hfirst
    rcases hm : missFetch env (extract_video_id id) with ⟨res, m⟩
    rw [hm] at hfirst
    cases res with
    | error e => simp at hfirst
    | ok payload =>
      rcases payload with ⟨t, a, l, ft⟩
      simp only [if_true, Prod.mk.injEq] at hfirst
      obtain ⟨h1, h2, h3⟩ := hfirst
      subst h2
      have hd : d = ⟨extract_video_id id, t, a, l, ft, "saved"⟩ := by
        cases h1
        rfl
      subst hd
      simp only [get_video_data]
      rw [find?_append_of_none hnone]
      simp [List.find?]

/-- Witness for C1: a concrete uncached fetch followed by the cache hit. -/
theorem get_cache_hit_and_second_get_witness :
    get_video_data envPlain
        [⟨"abc", none, none, none, "No transcript available."⟩] "abc" true =
      (.ok ⟨"abc", none, none, none, "No transcript available.", "exists"⟩,
       [⟨"abc", none, none, none, "No transcript available."⟩], 0) :=
  get_cache_hit_and_second_get.2 envPlain [] "abc"
    ⟨"abc", none, none, none, "No transcript available.", "saved"⟩
    [⟨"abc", none, none, none, "No transcript available."⟩] 2 rfl rfl

/-- Claim C6: `bulk_save_videos` returns exactly one result per input ID;
the worker-pool ceiling is the fixed constant 5, independent of the input
size; and in the scenario `bulk_save_videos [A, B, C]` where fetching `B`
fails, the result list is a success record for `A`, the error entry for
`B`, and a success record for `C` (B's failure affects neither), with
only the rows for `A` and `C` inserted.  No exception escapes: every
entry is an `MgrResult`. -/
theorem bulk_fetch_isolation :
    (∀ (env : MgrEnv) (db : Db) (ids : List String),
        (bulk_save_videos env db ids).1.length = ids.length) ∧
    bulk_max_workers = 5 ∧
    (∀ (env : MgrEnv) (A B C : String) (ta aa la : Option Json) (fa : String)
        (tc ac lc : Option Json) (fc : String) (eB : String) (na nb nc : Nat),
        missFetch env (extract_video_id A) = (.ok (ta, aa, la, fa), na) →
        missFetch env (extract_video_id B) = (.error eB, nb) →
        missFetch env (extract_video_id C) = (.ok (tc, ac, lc, fc), nc) →
        (extract_video_id A == extract_video_id B) = false →
        (extract_video_id A == extract_video_id C) = false →
        bulk_save_videos env [] [A, B, C] =
          ([.ok ⟨extract_video_id A, ta, aa, la, fa, "saved"⟩, .err eB,
            .ok ⟨extract_video_id C, tc, ac, lc, fc, "saved"⟩],
           [⟨extract_video_id A, ta, aa, la, fa⟩, ⟨extract_video_id C, tc, ac, lc, fc⟩])) := by
  refine ⟨?_, rfl, ?_⟩
  · intro env db ids
    induction ids generalizing db with
    | nil => rfl
    | cons v rest ih => simp [bulk_save_videos, ih]
  · intro env A B C ta aa la fa tc ac lc fc eB na nb nc hA hB hC hAB hAC
    simp [bulk_save_videos, get_video_data, hA, hB, hC, List.find?, hAB, hAC]

/-- Witness for C6 at a concrete environment where fetching `"B"`
raises. -/
theorem bulk_fetch_isolation_witness :
    bulk_save_videos envBulk [] ["A", "B", "C"] =
      ([.ok ⟨"A", none, none, none, "No transcript available.", "saved"⟩, .err "boom",
        .ok ⟨"C", none, none, none, "No transcript available.", "saved"⟩],
       [⟨"A", none, none, none, "No transcript available."⟩,
        ⟨"C", none, none, none, "No transcript available."⟩]) :=
  bulk_fetch_isolation.2.2 envBulk "A" "B" "C" none none none "No transcript available."
    none none none "No transcript available." "boom" 2 1 2 rfl rfl rfl rfl rfl

/-- Claim C10, evaluation at the failing input: the line-125 comment
says the stored transcript is non-empty so that a checked-but-absent
transcript is distinguishable, but when the caption body is the JSON
`{"text": ""}` the resolver returns the one-line list `[""]`, which is
truthy, so the join produces `""` and an empty transcript is saved. -/
theorem empty_text_segment_empty_transcript :
    get_video_data envEmptySeg [] "vid" true =
      (.ok ⟨"vid", some (.str "T"), none, none, "", "saved"⟩,
       [⟨"vid", some (.str "T"), none, none, ""⟩], 3) ∧
    ("" = "No transcript available.") = False := by
  constructor
  · simp [get_video_data, missFetch, extract_transcript, getCaptionTracks, envEmptySeg, pyGet,
      pyGetOpt, jlookup, flagTracks, enFlag, selectTrack, pyStartsWith, fetchAndParse, bodyLines,
      collectText, collectKVs, collectArr, optTruthy, Json.isTruthy, Json.isFalsy, extract_video_id,
      pyIn, containsSeq, PErr.msg, xmlFallback, jsonOfOpt, Except.bind, bind, pure, Except.pure,
      List.filter, List.isPrefixOf, String.intercalate, String.intercalate.go]
  · simp

theorem enFlag_ok (t : Json) (h : trackOk t = true) : enFlag t = .ok (t, trackIsEn t) := by
  cases t with
  | obj kvs =>
    simp only [trackOk] at h
    simp only [enFlag, pyGet, trackIsEn]
    cases hl : jlookup "languageCode" kvs with
    | none =>
      simp [hl, Except.bind, bind, pure, Except.pure]
      decide
    | some v =>
      rw [hl] at h
      cases v <;> simp_all [Except.bind, bind, pure, Except.pure]
  | null => simp [trackOk] at h
  | bool b => simp [trackOk] at h
  | num n => simp [trackOk] at h
  | str s => simp [trackOk] at h
  | arr xs => simp [trackOk] at h

theorem flagTracks_ok (ts : List Json) (h : ∀ t ∈ ts, trackOk t = true) :
    flagTracks ts = .ok (ts.map (fun t => (t, trackIsEn t))) := by
  induction ts with
  | nil => rfl
  | cons t rest ih =>
    have ht : trackOk t = true := h t (List.mem_cons_self t rest)
    have hrest := ih (fun x hx => h x (List.mem_cons_of_mem _ hx))
    simp [flagTracks, hrest, enFlag_ok t ht, Except.bind, bind, pure, Except.pure]

theorem selectTrack_filter (ts : List Json) :
    selectTrack ts (ts.map (fun t => (t, trackIsEn t))) =
      (if (ts.filter trackIsEn).isEmpty then ts.headD .null
       else (ts.filter trackIsEn).headD .null) := by
  have aux : ((ts.map (fun t => (t, trackIsEn t))).filter (fun p => p.2)).map (fun p => p.1) =
      ts.filter trackIsEn := by
    induction ts with
    | nil => rfl
    | cons t rest ih =>
      cases he : trackIsEn t <;> simp [List.filter, he, ih]
  simp only [selectTrack, aux]
  cases hf : ts.filter trackIsEn with
  | nil => simp
  | cons e rest => simp

/-- Claim C4: with an empty caption-track list `extract_transcript`
returns unavailable and issues zero HTTP requests; with a non-empty list
of well-formed tracks the line-120 comprehension computes each track's
en-flag, the selection takes the first track whose `languageCode` begins
with `"en"` when one exists (regardless of its position) and otherwise
the first track in list order, and the single HTTP request goes to the
selected track's `baseUrl`. -/
theorem caption_track_selection :
    (∀ (httpGet : String → Except FetchErr Body) (pj : Json),
        getCaptionTracks pj = .ok (.arr []) →
        extract_transcript httpGet pj = (.ok none, 0)) ∧
    (∀ (ts : List Json), (∀ t ∈ ts, trackOk t = true) →
        flagTracks ts = .ok (ts.map (fun t => (t, trackIsEn t)))) ∧
    (∀ (ts : List Json),
        selectTrack ts (ts.map (fun t => (t, trackIsEn t))) =
          (if (ts.filter trackIsEn).isEmpty then ts.headD .null
           else (ts.filter trackIsEn).headD .null)) ∧
    (∀ (httpGet : String → Except FetchErr Body) (pj : Json) (ts : List Json) (u : String),
        getCaptionTracks pj = .ok (.arr ts) → ts ≠ [] →
        (∀ t ∈ ts, trackOk t = true) →
        pyGetOpt (selectTrack ts (ts.map (fun t => (t, trackIsEn t)))) "baseUrl" =
          .ok (some (.str u)) →
        (u == "") = false →
        extract_transcript httpGet pj = fetchAndParse httpGet u) := by
  refine ⟨?_, flagTracks_ok, selectTrack_filter, ?_⟩
  · intro httpGet pj h
    simp [extract_transcript, h, Json.isFalsy]
  · intro httpGet pj ts u hcts hne hok hurl hu
    simp only [extract_transcript, hcts]
    have hfalsy : ¬((Json.arr ts).isFalsy = true) := by
      simp [Json.isFalsy, List.isEmpty_iff, hne]
    rw [if_neg hfalsy, flagTracks_ok ts hok]
    simp only [hurl]
    have hcond : ¬((!optTruthy (some (.str u))) = true) := by
      simp [optTruthy, Json.isTruthy, Json.isFalsy, hu]
    rw [if_neg hcond]

/-- Witness for C4: with a French track first and an English track
second, the request goes to the English track's URL `u2`. -/
theorem caption_track_selection_witness :
    extract_transcript (fun _ => .error .timeout)
        (.obj [("captions", .obj [("playerCaptionsTracklistRenderer", .obj [("captionTracks",
          .arr [.obj [("languageCode", .str "fr"), ("baseUrl", .str "u1")],
                .obj [("languageCode", .str "en"), ("baseUrl", .str "u2")]])])])]) =
      fetchAndParse (fun _ => .error .timeout) "u2" ∧
    fetchAndParse (fun _ => (.error .timeout : Except FetchErr Body)) "u2" = (.ok none, 1) := by
  constructor
  · exact caption_track_selection.2.2.2 (fun _ => .error .timeout) _
      [.obj [("languageCode", .str "fr"), ("baseUrl", .str "u1")],
       .obj [("languageCode", .str "en"), ("baseUrl", .str "u2")]] "u2"
      rfl (by simp) (by decide) rfl rfl
  · rfl

/-- Claim C3: for every fetched caption-track body, the resolver first
parses it as JSON, collecting every string under a `text` key in
depth-first order (`collectText`), and returns that list immediately
when non-empty; when the JSON tier yields nothing it parses the body as
markup, producing one line per paragraph element (trimmed `s`-child
texts joined with single spaces, paragraphs without text segments
skipped); when markup parsing also fails structurally it returns
unavailable.  The last conjunct ties the parse to the fetched body. -/
theorem transcript_two_tier_parsing :
    (∀ (body : Body) (j : Json), body.asJson = some j → collectText j ≠ [] →
        bodyLines body = some (collectText j)) ∧
    (∀ (body : Body) (root : Xml), (∀ j, body.asJson = some j → collectText j = []) →
        body.asXml = some root →
        bodyLines body = (if xmlLines root = [] then none else some (xmlLines root))) ∧
    (∀ (body : Body), (∀ j, body.asJson = some j → collectText j = []) →
        body.asXml = none → bodyLines body = none) ∧
    (∀ (httpGet : String → Except FetchErr Body) (u : String) (body : Body),
        httpGet u = .ok body → fetchAndParse httpGet u = (.ok (bodyLines body), 1)) := by
  refine ⟨?_, ?_, ?_, ?_⟩
  · intro body j hj hne
    rcases body with ⟨aj, ax⟩
    simp only [Body.asJson] at hj
    subst hj
    simp [bodyLines, List.isEmpty_iff, hne]
  · intro body root hj hx
    rcases body with ⟨aj, ax⟩
    simp only [Body.asJson] at hj
    simp only [Body.asXml] at hx
    subst hx
    cases aj with
    | none =>
      simp only [bodyLines, xmlFallback]
      cases hls : (xmlLines root).isEmpty with
      | true => simp_all [List.isEmpty_iff]
      | false => simp_all [List.isEmpty_iff]
    | some j =>
      have hcj : collectText j = [] := hj j rfl
      simp only [bodyLines, hcj, List.isEmpty_nil, if_true, xmlFallback]
      cases hls : (xmlLines root).isEmpty with
      | true => simp_all [List.isEmpty_iff]
      | false => simp_all [List.isEmpty_iff]
  · intro body hj hx
    rcases body with ⟨aj, ax⟩
    simp only [Body.asXml] at hx
    subst hx
    cases aj with
    | none => rfl
    | some j =>
      have hcj : collectText j = [] := hj j rfl
      simp [bodyLines, hcj, xmlFallback]
  · intro httpGet u body h
    simp [fetchAndParse, h]

/-- Witness for C3: a JSON caption body with two text events. -/
theorem transcript_two_tier_parsing_witness :
    bodyLines { asJson := some (.obj [("events", .arr [.obj [("text", .str "hello")],
        .obj [("text", .str "world")]])]), asXml := none } = some ["hello", "world"] := by
  have h := transcript_two_tier_parsing.1
    { asJson := some (.obj [("events", .arr [.obj [("text", .str "hello")],
        .obj [("text", .str "world")]])]), asXml := none }
    (.obj [("events", .arr [.obj [("text", .str "hello")], .obj [("text", .str "world")]])])
    rfl (by simp [collectText, collectKVs, collectArr, jlookup])
  simpa [collectText, collectKVs, collectArr, jlookup] using h

theorem extract_min_renderer (v : String) (hv : (v == "") = false) :
    extract_video_basic_info (.obj [("videoId", .str v)]) = .ok (some (recOf v)) := by
  simp [extract_video_basic_info, pyGetOpt, jlookup, optTruthy, Json.isTruthy, Json.isFalsy, hv,
    titleOf, thumbnailOf, publishedOf, viewCountOf, authorOf, pyGet, pyIndex, recOf, jsonOfOpt,
    Except.bind, bind, pure, Except.pure]

theorem processItems_video (v : String) (rest : List Json) (tok : Json) (hv : (v == "") = false) :
    processItems (mkVideoItem v :: rest) tok =
      ((recOf v) :: (processItems rest tok).1, (processItems rest tok).2) := by
  simp [processItems, mkVideoItem, pyGetOpt, jlookup, optTruthy, Json.isTruthy, Json.isFalsy,
    jsonOfOpt, extract_min_renderer v hv]

theorem processItems_cont (t : String) (rest : List Json) (tok : Json) :
    processItems (mkContItem t :: rest) tok = processItems rest (.str t) := by
  simp [processItems, mkContItem, pyGetOpt, jlookup, optTruthy, Json.isTruthy, Json.isFalsy,
    jsonOfOpt, tokenOf, pyGet, Except.bind, bind, pure, Except.pure]

theorem listLoopF_cont_requests (browse : BrowseReq → Json) :
    ∀ (fuel : Nat) (tok : Json) (pid : String), tok.isTruthy = true →
      ∀ r ∈ (listLoopF browse fuel tok pid).2.1, ∃ t, r = .cont t := by
  intro fuel
  induction fuel with
  | zero =>
    intro tok pid htok r hr
    simp [listLoopF] at hr
  | succ n ih =>
    intro tok pid htok r hr
    simp only [listLoopF, htok, if_true] at hr
    split at hr
    · simp at hr; exact ⟨tok, hr⟩
    · simp at hr; exact ⟨tok, hr⟩
    · split at hr
      · simp at hr; exact ⟨tok, hr⟩
      · split at hr
        · simp at hr; exact ⟨tok, hr⟩
        · simp at hr; exact ⟨tok, hr⟩
        · split at hr
          · simp at hr; exact ⟨tok, hr⟩
          · simp only [List.mem_cons] at hr
            rcases hr with hr | hr
            · exact ⟨tok, hr⟩
            · rename_i newTok hiter hcond
              have hf : newTok.isFalsy = false := by
                revert hcond
                cases newTok.isFalsy <;> simp
              have hnt : newTok.isTruthy = true := by
                simp [Json.isTruthy, hf]
              exact ih newTok pid hnt r hr

theorem processItems_nil (tok : Json) : processItems [] tok = ([], .ok tok) := rfl

theorem isTruthy_null : Json.isTruthy .null = false := rfl

theorem listLoopF_step_init (browse : BrowseReq → Json) (fuel : Nat) (pid : String)
    (items : Json) (recs : List Json) (newTok : Json)
    (hVL : pyStartsWith pid "VL" = false)
    (hinit : initialItems (browse (.initial ("VL" ++ pid))) = .ok items)
    (hfal : items.isFalsy = false)
    (hiter : iterItems items = (recs, .ok newTok))
    (hnew : newTok.isFalsy = false) :
    listLoopF browse (fuel+1) .null pid =
      (recs ++ (listLoopF browse fuel newTok pid).1,
       .initial ("VL" ++ pid) :: (listLoopF browse fuel newTok pid).2.1,
       (listLoopF browse fuel newTok pid).2.2) := by
  simp only [listLoopF, isTruthy_null, Bool.false_eq_true, if_false, hVL, hinit, hfal, hiter,
    hnew]

theorem listLoopF_step_cont (browse : BrowseReq → Json) (fuel : Nat) (tok : Json) (pid : String)
    (items : Json) (recs : List Json) (newTok : Json)
    (htok : tok.isTruthy = true)
    (hcont : contItems (browse (.cont tok)) = .ok items)
    (hfal : items.isFalsy = false)
    (hiter : iterItems items = (recs, .ok newTok))
    (hnew : newTok.isFalsy = false) :
    listLoopF browse (fuel+1) tok pid =
      (recs ++ (listLoopF browse fuel newTok pid).1,
       .cont tok :: (listLoopF browse fuel newTok pid).2.1,
       (listLoopF browse fuel newTok pid).2.2) := by
  simp only [listLoopF, htok, if_true, hcont, hfal, hiter, hnew]
  simp

theorem listLoopF_step_done (browse : BrowseReq → Json) (fuel : Nat) (tok : Json) (pid : String)
    (items : Json) (recs : List Json) (newTok : Json)
    (htok : tok.isTruthy = true)
    (hcont : contItems (browse (.cont tok)) = .ok items)
    (hfal : items.isFalsy = false)
    (hiter : iterItems items = (recs, .ok newTok))
    (hnew : newTok.isFalsy = true) :
    listLoopF browse (fuel+1) tok pid = (recs, [.cont tok], .doneNormal) := by
  simp only [listLoopF, htok, if_true, hcont, hfal, hiter, hnew]
  simp

/-- Claim C2: in every playlist traversal the first request carries the
collection ID and every later request carries only a continuation token;
a page whose items chain is empty ends the traversal after that request;
a page's extracted token is consumed by exactly the next request; and a
3-page collection (two pages carrying tokens, the last carrying none)
emits all items of all three pages in order, via the tree extractor, in
exactly 3 requests, ending normally. -/
theorem pagination_traversal_spec :
    (∀ (browse : BrowseReq → Json) (fuel : Nat) (input : String),
        (cmd_list_playlist browse fuel input).2.1 = [] ∨
        ∃ b rest, (cmd_list_playlist browse fuel input).2.1 = .initial b :: rest ∧
          ∀ q ∈ rest, ∃ t, q = .cont t) ∧
    (∀ (browse : BrowseReq → Json) (fuel : Nat) (tok : Json) (pid : String),
        tok.isTruthy = true →
        contItems (browse (.cont tok)) = .ok (.arr []) →
        listLoopF browse (fuel+1) tok pid = ([], [.cont tok], .doneNormal)) ∧
    (∀ (browse : BrowseReq → Json) (fuel : Nat) (tok : Json) (pid : String)
        (items : Json) (recs : List Json) (newTok : Json),
        tok.isTruthy = true →
        contItems (browse (.cont tok)) = .ok items →
        items.isFalsy = false →
        iterItems items = (recs, .ok newTok) →
        newTok.isFalsy = false →
        listLoopF browse (fuel+1) tok pid =
          (recs ++ (listLoopF browse fuel newTok pid).1,
           .cont tok :: (listLoopF browse fuel newTok pid).2.1,
           (listLoopF browse fuel newTok pid).2.2)) ∧
    (∀ (browse : BrowseReq → Json) (input : String) (n : Nat)
        (v1 v2 v3 v4 t1 t2 : String),
        pyIn "list=" input = false →
        pyStartsWith input "VL" = false →
        (v1 == "") = false → (v2 == "") = false → (v3 == "") = false → (v4 == "") = false →
        (t1 == "") = false → (t2 == "") = false →
        browse (.initial ("VL" ++ input)) =
          mkInitialPage [mkVideoItem v1, mkVideoItem v2, mkContItem t1] →
        browse (.cont (.str t1)) = mkContPage [mkVideoItem v3, mkContItem t2] →
        browse (.cont (.str t2)) = mkContPage [mkVideoItem v4] →
        cmd_list_playlist browse (n+3) input =
          ([recOf v1, recOf v2, recOf v3, recOf v4],
           [.initial ("VL" ++ input), .cont (.str t1), .cont (.str t2)], .doneNormal)) := by
  refine ⟨?_, ?_, listLoopF_step_cont, ?_⟩
  · intro browse fuel input
    cases fuel with
    | zero => left; rfl
    | succ n =>
      right
      simp only [cmd_list_playlist, listLoopF, isTruthy_null, Bool.false_eq_true, if_false]
      split
      · exact ⟨_, _, rfl, by intro q hq; simp at hq⟩
      · exact ⟨_, _, rfl, by intro q hq; simp at hq⟩
      · split
        · exact ⟨_, _, rfl, by intro q hq; simp at hq⟩
        · split
          · exact ⟨_, _, rfl, by intro q hq; simp at hq⟩
          · exact ⟨_, _, rfl, by intro q hq; simp at hq⟩
          · split
            · exact ⟨_, _, rfl, by intro q hq; simp at hq⟩
            · rename_i newTok hiter hcond
              refine ⟨_, _, rfl, ?_⟩
              intro q hq
              have hf : newTok.isFalsy = false := by
                cases hx : newTok.isFalsy with
                | false => rfl
                | true => exact absurd hx hcond
              exact listLoopF_cont_requests browse n newTok _
                (by simp [Json.isTruthy, hf]) q hq
  · intro browse fuel tok pid htok hcont
    simp [listLoopF, htok, hcont, Json.isFalsy]
  · intro browse input n v1 v2 v3 v4 t1 t2 hlist hVL h1 h2 h3 h4 ht1 ht2 hb1 hb2 hb3
    have hplid : extract_playlist_id input = input := by
      simp [extract_playlist_id, hlist]
    have e1 : iterItems (.arr [mkVideoItem v1, mkVideoItem v2, mkContItem t1]) =
        ([recOf v1, recOf v2], .ok (.str t1)) := by
      simp [iterItems, processItems_video, processItems_cont, processItems_nil, h1, h2]
    have e2 : iterItems (.arr [mkVideoItem v3, mkContItem t2]) =
        ([recOf v3], .ok (.str t2)) := by
      simp [iterItems, processItems_video, processItems_cont, processItems_nil, h3]
    have e3 : iterItems (.arr [mkVideoItem v4]) = ([recOf v4], .ok .null) := by
      simp [iterItems, processItems_video, processItems_nil, h4]
    have ht1' : Json.isTruthy (.str t1) = true := by
      simp [Json.isTruthy, Json.isFalsy, ht1]
    have ht2' : Json.isTruthy (.str t2) = true := by
      simp [Json.isTruthy, Json.isFalsy, ht2]
    have s3 : listLoopF browse (n+1) (.str t2) input = ([recOf v4], [.cont (.str t2)], .doneNormal) :=
      listLoopF_step_done browse n (.str t2) input _ _ _ ht2' (by rw [hb3]; rfl) (by rfl) e3 (by rfl)
    have s2 : listLoopF browse (n+2) (.str t1) input =
        ([recOf v3, recOf v4], [.cont (.str t1), .cont (.str t2)], .doneNormal) := by
      have h := listLoopF_step_cont browse (n+1) (.str t1) input _ _ _ ht1' (by rw [hb2]; rfl) (by rfl)
        e2 (by simp [Json.isFalsy, ht2])
      rw [s3] at h
      simpa using h
    have s1 := listLoopF_step_init browse (n+2) input _ _ _ hVL (by rw [hb1]; rfl) (by rfl) e1
      (by simp [Json.isFalsy, ht1])
    rw [s2] at s1
    simp only [cmd_list_playlist, hplid]
    simpa using s1

/-- Witness for C2 at the concrete three-page environment `browse3`. -/
theorem pagination_traversal_spec_witness :
    cmd_list_playlist browse3 10 "PL1" =
      ([recOf "a", recOf "b", recOf "c", recOf "d"],
       [.initial "VLPL1", .cont (.str "t1"), .cont (.str "t2")], .doneNormal) :=
  pagination_traversal_spec.2.2.2 browse3 "PL1" 7 "a" "b" "c" "d" "t1" "t2"
    (by decide) (by decide) rfl rfl rfl rfl rfl rfl rfl rfl rfl


theorem exceptOk_exists {α : Type} (e : Except PErr α) (h : e.isOk = true) : ∃ v, e = .ok v := by
  cases e with
  | error err => simp [Except.isOk, Except.toBool] at h
  | ok v => exact ⟨v, rfl⟩

theorem titleOf_isOk (kvs : List (String × Json)) (hT : titleShape kvs = true) :
    (titleOf (.obj kvs)).isOk = true := by
  cases ht : jlookup "title" kvs with
  | none =>
    simp [titleOf, pyGet, pyGetOpt, pyIndex, ht, Except.bind, bind, pure, Except.pure,
      Except.isOk, Except.toBool, jlookup]
  | some v =>
    simp only [titleShape, ht] at hT
    cases v with
    | obj t2 =>
      cases hr : jlookup "runs" t2 with
      | none =>
        simp [titleOf, pyGet, pyGetOpt, pyIndex, ht, hr, Except.bind, bind, pure, Except.pure,
          Except.isOk, Except.toBool, jlookup]
      | some w =>
        simp only [hr] at hT
        cases w with
        | arr xs =>
          cases xs with
          | nil => simp at hT
          | cons x rest =>
            cases x with
            | obj xkvs =>
              simp [titleOf, pyGet, pyGetOpt, pyIndex, ht, hr, Except.bind, bind, pure,
                Except.pure, Except.isOk, Except.toBool, jlookup]
            | null => simp [Json.isObjB] at hT
            | bool b => simp [Json.isObjB] at hT
            | num m => simp [Json.isObjB] at hT
            | str s => simp [Json.isObjB] at hT
            | arr ys => simp [Json.isObjB] at hT
        | obj o => simp at hT
        | null => simp at hT
        | bool b => simp at hT
        | num m => simp at hT
        | str s => simp at hT
    | null => simp [titleShape, ht] at hT
    | bool b => simp [titleShape, ht] at hT
    | num m => simp [titleShape, ht] at hT
    | str s => simp [titleShape, ht] at hT
    | arr ys => simp [titleShape, ht] at hT

theorem lastIsObj_getLast (xs : List Json) (h : lastIsObj xs = true) (hne : xs ≠ []) :
    ∃ okvs, xs.getLast? = some (.obj okvs) := by
  induction xs with
  | nil => exact absurd rfl hne
  | cons x rest ih =>
    cases rest with
    | nil =>
      simp only [lastIsObj] at h
      cases x with
      | obj okvs => exact ⟨okvs, rfl⟩
      | null => simp [Json.isObjB] at h
      | bool b => simp [Json.isObjB] at h
      | num m => simp [Json.isObjB] at h
      | str s => simp [Json.isObjB] at h
      | arr ys => simp [Json.isObjB] at h
    | cons y rest2 =>
      simp only [lastIsObj] at h
      obtain ⟨okvs, hl⟩ := ih h (by simp)
      exact ⟨okvs, by rw [List.getLast?_cons_cons]; exact hl⟩

theorem thumbnailOf_isOk (kvs : List (String × Json)) (hTh : thumbShape kvs = true) :
    (thumbnailOf (.obj kvs)).isOk = true := by
  cases ht : jlookup "thumbnail" kvs with
  | none =>
    simp [thumbnailOf, pyGet, pyGetOpt, pyIndexLast, ht, Except.bind, bind, pure, Except.pure,
      Except.isOk, Except.toBool, jlookup, Json.isTruthy, Json.isFalsy]
  | some v =>
    simp only [thumbShape, ht] at hTh
    cases v with
    | obj h2 =>
      cases hr : jlookup "thumbnails" h2 with
      | none =>
        simp [thumbnailOf, pyGet, pyGetOpt, pyIndexLast, ht, hr, Except.bind, bind, pure,
          Except.pure, Except.isOk, Except.toBool, jlookup, Json.isTruthy, Json.isFalsy]
      | some w =>
        simp only [hr] at hTh
        cases w with
        | arr xs =>
          cases hxs : xs with
          | nil =>
            subst hxs
            simp [thumbnailOf, pyGet, pyGetOpt, pyIndexLast, ht, hr, Except.bind, bind, pure,
              Except.pure, Except.isOk, Except.toBool, jlookup, Json.isTruthy, Json.isFalsy]
          | cons x rest =>
            subst hxs
            simp only [lastIsObj] at hTh
            obtain ⟨okvs, hl⟩ := lastIsObj_getLast (x :: rest) (by simpa [lastIsObj] using hTh) (by simp)
            simp [thumbnailOf, pyGet, pyGetOpt, pyIndexLast, ht, hr, hl, Except.bind, bind,
              pure, Except.pure, Except.isOk, Except.toBool, jlookup, Json.isTruthy,
              Json.isFalsy]
        | obj o => simp at hTh
        | null => simp at hTh
        | bool b => simp at hTh
        | num m => simp at hTh
        | str s => simp at hTh
    | null => simp [thumbShape, ht] at hTh
    | bool b => simp [thumbShape, ht] at hTh
    | num m => simp [thumbShape, ht] at hTh
    | str s => simp [thumbShape, ht] at hTh
    | arr ys => simp [thumbShape, ht] at hTh

theorem publishedOf_isOk (kvs : List (String × Json)) (hP : pubShape kvs = true) :
    (publishedOf (.obj kvs)).isOk = true := by
  cases ht : jlookup "publishedTimeText" kvs with
  | none =>
    simp [publishedOf, pyGet, ht, Except.bind, bind, pure, Except.pure, Except.isOk,
      Except.toBool, jlookup]
  | some v =>
    simp only [pubShape, ht] at hP
    cases v with
    | obj p2 =>
      cases hs : jlookup "simpleText" p2 <;>
        simp [publishedOf, pyGet, ht, hs, Except.bind, bind, pure, Except.pure, Except.isOk,
          Except.toBool, jlookup]
    | null => simp at hP
    | bool b => simp at hP
    | num m => simp at hP
    | str s => simp at hP
    | arr ys => simp at hP

theorem runTexts_strs (rs : List Json) (h : rs.all runOk = true) :
    ∃ vs : List String, runTexts rs = .ok (vs.map Json.str) := by
  induction rs with
  | nil => exact ⟨[], rfl⟩
  | cons r rest ih =>
    simp only [List.all_cons, Bool.and_eq_true] at h
    obtain ⟨hr, hrest⟩ := h
    obtain ⟨vs, hvs⟩ := ih hrest
    cases r with
    | obj rkvs =>
      cases htx : jlookup "text" rkvs with
      | none =>
        refine ⟨"" :: vs, ?_⟩
        simp [runTexts, pyGet, htx, hvs, Except.bind, bind, pure, Except.pure]
      | some t =>
        simp only [runOk, htx] at hr
        cases t with
        | str s =>
          refine ⟨s :: vs, ?_⟩
          simp [runTexts, pyGet, htx, hvs, Except.bind, bind, pure, Except.pure]
        | null => simp at hr
        | bool b => simp at hr
        | num m => simp at hr
        | obj o => simp at hr
        | arr ys => simp at hr
    | null => simp [runOk] at hr
    | bool b => simp [runOk] at hr
    | num m => simp [runOk] at hr
    | str s => simp [runOk] at hr
    | arr ys => simp [runOk] at hr

theorem pyJoin_strs (vs : List String) : ∃ s, pyJoin (vs.map Json.str) = .ok s := by
  induction vs with
  | nil => exact ⟨"", rfl⟩
  | cons v rest ih =>
    obtain ⟨s, hs⟩ := ih
    exact ⟨v ++ s, by simp [pyJoin, hs, Except.bind, bind, pure, Except.pure]⟩

theorem viewCountOf_isOk (kvs : List (String × Json)) (hV : viewShape kvs = true) :
    (viewCountOf (.obj kvs)).isOk = true := by
  cases ht : jlookup "viewCountText" kvs with
  | none =>
    simp [viewCountOf, pyGet, ht, Except.bind, bind, pure, Except.pure, Except.isOk,
      Except.toBool, jlookup, Json.isTruthy, Json.isFalsy]
  | some v =>
    simp only [viewShape, ht] at hV
    cases v with
    | obj vkvs =>
      have hruns : ∀ hvtFalse : True,
          (match jlookup "runs" vkvs with
           | none => True
           | some (.arr rs) => rs.all runOk = true
           | some _ => False) := by
        intro _
        cases hr : jlookup "runs" vkvs with
        | none => trivial
        | some w =>
          simp only [hr] at hV
          cases w with
          | arr rs => exact hV
          | obj o => simp at hV
          | null => simp at hV
          | bool b => simp at hV
          | num m => simp at hV
          | str s => simp at hV
      have harr0 : (Json.arr []).isTruthy = false := rfl
      have hstr0 : (Json.str "").isTruthy = false := rfl
      cases hs : jlookup "simpleText" vkvs with
      | none =>
        cases hr : jlookup "runs" vkvs with
        | none =>
          simp [viewCountOf, pyGet, ht, hs, hr, hstr0, harr0, Except.bind, bind, pure,
            Except.pure, Except.isOk, Except.toBool]
        | some w =>
          have hw := hruns trivial
          rw [hr] at hw
          cases w with
          | arr rs =>
            cases rs with
            | nil =>
              simp [viewCountOf, pyGet, ht, hs, hr, hstr0, harr0, Except.bind, bind, pure,
                Except.pure, Except.isOk, Except.toBool]
            | cons r rest =>
              have harrc : (Json.arr (r :: rest)).isTruthy = true := rfl
              obtain ⟨vs, hvs⟩ := runTexts_strs (r :: rest) hw
              obtain ⟨sj, hsj⟩ := pyJoin_strs vs
              simp [viewCountOf, pyGet, ht, hs, hr, hstr0, harrc, hvs, hsj, Except.bind, bind,
                pure, Except.pure, Except.isOk, Except.toBool]
          | obj o => exact absurd hw (by simp)
          | null => exact absurd hw (by simp)
          | bool b => exact absurd hw (by simp)
          | num m => exact absurd hw (by simp)
          | str s2 => exact absurd hw (by simp)
      | some sv =>
        cases hsv : sv.isTruthy with
        | true =>
          simp [viewCountOf, pyGet, ht, hs, hsv, Except.bind, bind, pure, Except.pure,
            Except.isOk, Except.toBool]
        | false =>
          cases hr : jlookup "runs" vkvs with
          | none =>
            simp [viewCountOf, pyGet, ht, hs, hr, hsv, harr0, Except.bind, bind, pure,
              Except.pure, Except.isOk, Except.toBool]
          | some w =>
            have hw := hruns trivial
            rw [hr] at hw
            cases w with
            | arr rs =>
              cases rs with
              | nil =>
                simp [viewCountOf, pyGet, ht, hs, hr, hsv, harr0, Except.bind, bind, pure,
                  Except.pure, Except.isOk, Except.toBool]
              | cons r rest =>
                have harrc : (Json.arr (r :: rest)).isTruthy = true := rfl
                obtain ⟨vs, hvs⟩ := runTexts_strs (r :: rest) hw
                obtain ⟨sj, hsj⟩ := pyJoin_strs vs
                simp [viewCountOf, pyGet, ht, hs, hr, hsv, harrc, hvs, hsj, Except.bind, bind,
                  pure, Except.pure, Except.isOk, Except.toBool]
            | obj o => exact absurd hw (by simp)
            | null => exact absurd hw (by simp)
            | bool b => exact absurd hw (by simp)
            | num m => exact absurd hw (by simp)
            | str s2 => exact absurd hw (by simp)
    | null => simp [viewShape, ht] at hV
    | bool b => simp [viewShape, ht] at hV
    | num m => simp [viewShape, ht] at hV
    | str s => simp [viewShape, ht] at hV
    | arr ys => simp [viewShape, ht] at hV

theorem authorOf_isOk (kvs : List (String × Json)) (hO : ownerShape kvs = true) :
    (authorOf (.obj kvs)).isOk = true := by
  cases ht : jlookup "ownerText" kvs with
  | none =>
    simp [authorOf, pyGet, pyIndex, ht, Except.bind, bind, pure, Except.pure, Except.isOk,
      Except.toBool, jlookup]
  | some v =>
    simp only [ownerShape, ht] at hO
    cases v with
    | obj o2 =>
      cases hr : jlookup "runs" o2 with
      | none =>
        simp [authorOf, pyGet, pyIndex, ht, hr, Except.bind, bind, pure, Except.pure,
          Except.isOk, Except.toBool, jlookup]
      | some w =>
        simp only [hr] at hO
        cases w with
        | arr xs =>
          cases xs with
          | nil => simp at hO
          | cons x rest =>
            cases x with
            | obj xkvs =>
              cases htx : jlookup "text" xkvs with
              | none =>
                simp [authorOf, pyGet, pyIndex, ht, hr, htx, Except.bind, bind, pure,
                  Except.pure, Except.isOk, Except.toBool]
              | some t =>
                simp [authorOf, pyGet, pyIndex, ht, hr, htx, Except.bind, bind, pure,
                  Except.pure, Except.isOk, Except.toBool]
            | null => simp [Json.isObjB] at hO
            | bool b => simp [Json.isObjB] at hO
            | num m => simp [Json.isObjB] at hO
            | str s => simp [Json.isObjB] at hO
            | arr ys => simp [Json.isObjB] at hO
        | obj o => simp at hO
        | null => simp at hO
        | bool b => simp at hO
        | num m => simp at hO
        | str s => simp at hO
    | null => simp [ownerShape, ht] at hO
    | bool b => simp [ownerShape, ht] at hO
    | num m => simp [ownerShape, ht] at hO
    | str s => simp [ownerShape, ht] at hO
    | arr ys => simp [ownerShape, ht] at hO

/-- Claim C8 as amended: for every dictionary-shaped renderer whose
present fields have the shapes the extractor dereferences (absence is
tolerated at every level, wrong-typed present fields are not),
`extract_video_basic_info` cannot raise: it returns a record exactly
when the renderer carries a truthy `videoId` and absent otherwise. -/
theorem tree_extractor_wellshaped_total (r : Json) (hw : wellShaped r = true) :
    ∃ o, extract_video_basic_info r = .ok o ∧ o.isSome = hasVid r := by
  cases r with
  | obj kvs =>
    have hw5 : titleShape kvs = true ∧ thumbShape kvs = true ∧ pubShape kvs = true ∧
        viewShape kvs = true ∧ ownerShape kvs = true := by
      simpa [wellShaped, Bool.and_eq_true, and_assoc] using hw
    obtain ⟨hT, hTh, hP, hV, hO⟩ := hw5
    cases hv : optTruthy (jlookup "videoId" kvs) with
    | false =>
      refine ⟨none, ?_, by simp [hasVid, hv]⟩
      simp [extract_video_basic_info, pyGetOpt, hv, Except.bind, bind, pure, Except.pure]
    | true =>
      obtain ⟨tv, htv⟩ := exceptOk_exists _ (titleOf_isOk kvs hT)
      obtain ⟨thv, hthv⟩ := exceptOk_exists _ (thumbnailOf_isOk kvs hTh)
      obtain ⟨pv, hpv⟩ := exceptOk_exists _ (publishedOf_isOk kvs hP)
      obtain ⟨vv, hvv⟩ := exceptOk_exists _ (viewCountOf_isOk kvs hV)
      obtain ⟨av, hav⟩ := exceptOk_exists _ (authorOf_isOk kvs hO)
      refine ⟨some (.obj [("id", jsonOfOpt (jlookup "videoId" kvs)), ("title", jsonOfOpt tv),
        ("thumbnail", jsonOfOpt thv), ("publishedAt", pv), ("viewCount", vv), ("author", av)]),
        ?_, by simp [hasVid, hv]⟩
      simp [extract_video_basic_info, pyGetOpt, hv, htv, hthv, hpv, hvv, hav, Except.bind,
        bind, pure, Except.pure]
  | null => simp [wellShaped] at hw
  | bool b => simp [wellShaped] at hw
  | num n => simp [wellShaped] at hw
  | str s => simp [wellShaped] at hw
  | arr xs => simp [wellShaped] at hw

/-- Witness for C8 at a concrete well-shaped renderer. -/
theorem tree_extractor_wellshaped_total_witness :
    wellShaped (.obj [("videoId", .str "x"),
        ("title", .obj [("runs", .arr [.obj [("text", .str "T")]])])]) = true ∧
    ∃ o, extract_video_basic_info (.obj [("videoId", .str "x"),
        ("title", .obj [("runs", .arr [.obj [("text", .str "T")]])])]) = .ok o ∧
      o.isSome = hasVid (.obj [("videoId", .str "x"),
        ("title", .obj [("runs", .arr [.obj [("text", .str "T")]])])]) :=
  ⟨rfl, tree_extractor_wellshaped_total _ rfl⟩

theorem prefix_self_append (l t : List Char) : l.isPrefixOf (l ++ t) = true := by
  induction l with
  | nil => simp [List.isPrefixOf]
  | cons c rest ih => simp [List.isPrefixOf, ih]

theorem contains_of_prefix {sep l : List Char} (h : sep.isPrefixOf l = true) :
    containsSeq sep l = true := by
  cases l with
  | nil =>
    cases sep with
    | nil => rfl
    | cons c r => simp [List.isPrefixOf] at h
  | cons c r => simp [containsSeq, h]

theorem contains_of_decomp (sep a b : List Char) (hsep : sep ≠ []) :
    containsSeq sep (a ++ sep ++ b) = true := by
  induction a with
  | nil =>
    cases sep with
    | nil => exact absurd rfl hsep
    | cons s0 s2 =>
      simp only [List.nil_append]
      exact contains_of_prefix (prefix_self_append (s0 :: s2) b)
  | cons x a2 ih =>
    simp only [List.cons_append, containsSeq, Bool.or_eq_true]
    right
    simpa using ih

theorem contains_cons_false {sep : List Char} {x : Char} {l : List Char}
    (h : containsSeq sep (x :: l) = false) : containsSeq sep l = false := by
  simp only [containsSeq, Bool.or_eq_false_iff] at h
  exact h.2

theorem splitF_fuel_irrel (sep : List Char) :
    ∀ (f1 : Nat) (l : List Char) (f2 : Nat), l.length ≤ f1 → l.length ≤ f2 →
      pySplitF f1 sep l = pySplitF f2 sep l := by
  intro f1
  induction f1 with
  | zero =>
    intro l f2 h1 h2
    have : l = [] := List.length_eq_zero.mp (Nat.le_zero.mp h1)
    subst this
    cases f2 <;> rfl
  | succ n ih =>
    intro l f2 h1 h2
    cases l with
    | nil => cases f2 <;> rfl
    | cons c rest =>
      cases f2 with
      | zero => simp at h2
      | succ m =>
        simp only [pySplitF]
        by_cases hc : sep.isPrefixOf (c :: rest) = true ∧ sep ≠ []
        · rw [if_pos hc, if_pos hc]
          have hlen : (List.drop (sep.length - 1) rest).length ≤ n := by
            have := List.length_drop (sep.length - 1) rest
            simp only [List.length_cons] at h1
            omega
          have hlen2 : (List.drop (sep.length - 1) rest).length ≤ m := by
            have := List.length_drop (sep.length - 1) rest
            simp only [List.length_cons] at h2
            omega
          rw [ih _ m hlen hlen2]
        · rw [if_neg hc, if_neg hc]
          have hr1 : rest.length ≤ n := by simp only [List.length_cons] at h1; omega
          have hr2 : rest.length ≤ m := by simp only [List.length_cons] at h2; omega
          rw [ih rest m hr1 hr2]

theorem contains_of_middle {sep a : List Char} (hsep : sep ≠ []) (h : sep <:+: a) :
    containsSeq sep a = true := by
  obtain ⟨s, t, hst⟩ := h
  rw [← hst]
  exact contains_of_decomp sep s t hsep

theorem splitF_ne_nil : ∀ (fuel : Nat) (sep l : List Char), pySplitF fuel sep l ≠ [] := by
  intro fuel sep l
  cases fuel with
  | zero => cases l <;> simp [pySplitF]
  | succ f =>
    cases l with
    | nil => simp [pySplitF]
    | cons c rest =>
      simp only [pySplitF]
      split
      · simp
      · split <;> simp

theorem splitF_head (sep : List Char) :
    ∀ (fuel : Nat) (l : List Char), l.length ≤ fuel →
      (pySplitF fuel sep l).getD 0 [] = uptoSep sep l := by
  intro fuel
  induction fuel with
  | zero =>
    intro l h
    have hl : l = [] := List.length_eq_zero.mp (Nat.le_zero.mp h)
    subst hl
    rfl
  | succ n ih =>
    intro l h
    cases l with
    | nil => rfl
    | cons c rest =>
      simp only [pySplitF, uptoSep]
      by_cases hc : sep.isPrefixOf (c :: rest) = true ∧ sep ≠ []
      · rw [if_pos hc, if_pos hc]
        rfl
      · rw [if_neg hc, if_neg hc]
        cases hsp : pySplitF n sep rest with
        | nil => exact absurd hsp (splitF_ne_nil n sep rest)
        | cons h1 t1 =>
          have hh := ih rest (by simp only [List.length_cons] at h; omega)
          rw [hsp] at hh
          simp only [List.getD] at hh ⊢
          simp only [List.get?] at hh ⊢
          simp_all

theorem uptoSep_all (sep : List Char) : ∀ l, containsSeq sep l = false → uptoSep sep l = l := by
  intro l
  induction l with
  | nil => intro h; rfl
  | cons c rest ih =>
    intro h
    have h1 : sep.isPrefixOf (c :: rest) = false := by
      simp only [containsSeq, Bool.or_eq_false_iff] at h
      exact h.1
    simp only [uptoSep]
    rw [if_neg (by simp [h1])]
    rw [ih (contains_cons_false h)]

theorem uptoSep_push (sep : List Char) :
    ∀ (a b : List Char), containsSeq sep a = false →
      (∀ k, k ≠ [] → k <:+ a → sep.isPrefixOf (k ++ b) = false) →
      uptoSep sep (a ++ b) = a ++ uptoSep sep b := by
  intro a
  induction a with
  | nil => intro b _ _; rfl
  | cons x a2 ih =>
    intro b hca hns
    have hx : sep.isPrefixOf (x :: (a2 ++ b)) = false := by
      have := hns (x :: a2) (by simp) (List.suffix_refl _)
      simpa using this
    simp only [List.cons_append, uptoSep]
    rw [if_neg (by simp [hx])]
    have hrec := ih b (contains_cons_false hca)
      (fun k hk hka => hns k hk (hka.trans (List.suffix_cons x a2)))
    simpa using hrec

theorem noStraddle (sep a b : List Char) (hsep : sep ≠ [])
    (hca : containsSeq sep a = false)
    (hb : ∀ c p, b = c :: p → c ∉ sep) :
    ∀ k, k ≠ [] → k <:+ a → sep.isPrefixOf (k ++ b) = false := by
  intro k hk hka
  cases htest : sep.isPrefixOf (k ++ b) with
  | false => rfl
  | true =>
    exfalso
    have hpre : sep <+: (k ++ b) := List.isPrefixOf_iff_prefix.mp htest
    have htake := List.prefix_iff_eq_take.mp hpre
    by_cases hle : sep.length ≤ k.length
    · rw [List.take_append_of_le_length hle] at htake
      have hpk : sep <+: k := htake ▸ List.take_prefix _ _
      have hinf : sep <:+: a := hpk.isInfix.trans hka.isInfix
      rw [contains_of_middle hsep hinf] at hca
      exact Bool.true_eq_false.mp hca
    · rw [List.take_append_eq_append_take, List.take_of_length_le (by omega)] at htake
      cases b with
      | nil =>
        simp only [List.take_nil, List.append_nil] at htake
        have := congrArg List.length htake
        omega
      | cons c p =>
        have hm : sep.length - k.length = (sep.length - k.length - 1) + 1 := by omega
        rw [hm, List.take_succ_cons] at htake
        have hmem : c ∈ sep := by
          rw [htake]
          exact List.mem_append_right _ (List.mem_cons_self _ _)
        exact hb c p rfl hmem

theorem noStraddleChar (c : Char) (a b : List Char) (hc : c ∉ a) :
    ∀ k, k ≠ [] → k <:+ a → [c].isPrefixOf (k ++ b) = false := by
  intro k hk hka
  cases k with
  | nil => exact absurd rfl hk
  | cons k0 k2 =>
    have hk0 : k0 ∈ a := hka.subset (List.mem_cons_self k0 k2)
    have hne : c ≠ k0 := fun h => hc (h ▸ hk0)
    simp [List.isPrefixOf, hne]

theorem contains_single (c : Char) (l : List Char) (hc : c ∉ l) : containsSeq [c] l = false := by
  induction l with
  | nil => rfl
  | cons x rest ih =>
    simp only [containsSeq, Bool.or_eq_false_iff]
    refine ⟨?_, ih (fun h => hc (List.mem_cons_of_mem x h))⟩
    have hne : c ≠ x := by
      intro h
      exact hc (h ▸ List.mem_cons_self x rest)
    simp [List.isPrefixOf, hne]

theorem splitF_decomp (sep : List Char) (hsep : sep ≠ []) :
    ∀ (a : List Char) (fuel : Nat) (b : List Char),
      (a ++ sep ++ b).length ≤ fuel →
      containsSeq sep ((a ++ sep).dropLast) = false →
      pySplitF fuel sep (a ++ sep ++ b) = a :: pySplitL sep b := by
  intro a
  induction a with
  | nil =>
    intro fuel b hlen hcon
    cases sep with
    | nil => exact absurd rfl hsep
    | cons s0 s2 =>
      cases fuel with
      | zero => simp at hlen
      | succ f =>
        simp only [List.nil_append, List.cons_append, pySplitF]
        rw [if_pos ⟨by simp [prefix_self_append], hsep⟩]
        have hdrop : List.drop ((s0 :: s2).length - 1) (s2 ++ b) = b := by
          simp only [List.length_cons, Nat.add_sub_cancel]
          exact List.drop_left s2 b
        simp only [List.append_eq]
        rw [hdrop]
        have hb : b.length ≤ f := by
          simp only [List.length_append, List.length_cons] at hlen
          omega
        rw [splitF_fuel_irrel (s0 :: s2) f b b.length hb (Nat.le_refl _)]
        rfl
  | cons x a2 ih =>
    intro fuel b hlen hcon
    cases fuel with
    | zero => simp at hlen
    | succ f =>
      have hxne : sep.isPrefixOf (x :: (a2 ++ sep ++ b)) = false := by
        cases htest : sep.isPrefixOf (x :: (a2 ++ sep ++ b)) with
        | false => rfl
        | true =>
          exfalso
          have hpre : sep <+: (x :: (a2 ++ sep ++ b)) := List.isPrefixOf_iff_prefix.mp htest
          have heq : (x :: (a2 ++ sep ++ b)) = ((x :: a2) ++ sep) ++ b := by simp
          rw [heq] at hpre
          have htake := List.prefix_iff_eq_take.mp hpre
          have hlsep : sep.length ≤ ((x :: a2) ++ sep).length := by
            simp only [List.length_append, List.length_cons]
            omega
          rw [List.take_append_of_le_length hlsep] at htake
          have hdl : ((x :: a2) ++ sep).take sep.length =
              (((x :: a2) ++ sep).dropLast).take sep.length := by
            rw [List.dropLast_eq_take, List.take_take]
            congr 1
            have : 1 ≤ (x :: a2).length := by simp
            simp only [List.length_append]
            omega
          rw [hdl] at htake
          have hpre2 := List.take_prefix sep.length (((x :: a2) ++ sep).dropLast)
          rw [← htake] at hpre2
          rw [contains_of_middle hsep hpre2.isInfix] at hcon
          exact Bool.true_eq_false.mp hcon
      have hxne2 : sep.isPrefixOf (x :: (a2 ++ (sep ++ b))) = false := by
        simpa [List.append_assoc] using hxne
      simp only [List.cons_append, pySplitF]
      rw [if_neg (by simp [hxne2])]
      have hih := ih f b ?_ ?_
      · simp only [List.append_eq]
        rw [hih]
      · simp only [List.length_append, List.length_cons] at hlen ⊢
        omega
      · have hdl2 : ((x :: a2) ++ sep).dropLast = x :: (a2 ++ sep).dropLast := by
          rw [List.cons_append]
          exact List.dropLast_cons_of_ne_nil (by simp [hsep])
        rw [hdl2] at hcon
        exact contains_cons_false hcon

theorem splitL_decomp (sep : List Char) (hsep : sep ≠ []) (a b : List Char)
    (hcon : containsSeq sep ((a ++ sep).dropLast) = false) :
    pySplitL sep (a ++ sep ++ b) = a :: pySplitL sep b :=
  splitF_decomp sep hsep a (a ++ sep ++ b).length b (Nat.le_refl _) hcon

theorem splitL_head (sep l : List Char) : (pySplitL sep l).getD 0 [] = uptoSep sep l :=
  splitF_head sep l.length l (Nat.le_refl _)

theorem marker_extract (sep : List Char) (hsep : sep ≠ []) (hamp : '&' ∉ sep)
    (pre id post : List Char)
    (h1 : containsSeq sep ((pre ++ sep).dropLast) = false)
    (h2 : containsSeq sep id = false)
    (h3 : '&' ∉ id)
    (h4 : post = [] ∨ ∃ p, post = '&' :: p) :
    (pySplitL ['&'] (((pySplitL sep (pre ++ sep ++ id ++ post)).getD 1 []))).getD 0 [] = id := by
  have heq : pre ++ sep ++ id ++ post = pre ++ sep ++ (id ++ post) := by
    simp [List.append_assoc]
  rw [heq, splitL_decomp sep hsep pre (id ++ post) h1]
  have hget : (pre :: pySplitL sep (id ++ post)).getD 1 [] =
      (pySplitL sep (id ++ post)).getD 0 [] := rfl
  rw [hget, splitL_head sep (id ++ post)]
  have hb : ∀ c p, post = c :: p → c ∉ sep := by
    rcases h4 with h4 | ⟨p, rfl⟩
    · subst h4
      intro c p hc
      exact absurd hc (by simp)
    · intro c q hc
      rw [List.cons.injEq] at hc
      rw [← hc.1]
      exact hamp
  rw [uptoSep_push sep id post h2 (noStraddle sep id post hsep h2 hb)]
  rcases h4 with h4 | ⟨p, rfl⟩
  · subst h4
    simp only [uptoSep, List.append_nil]
    rw [splitL_head ['&'] id]
    exact uptoSep_all ['&'] id (contains_single '&' id h3)
  · have hstep : uptoSep sep ('&' :: p) = '&' :: uptoSep sep p := by
      cases sep with
      | nil => exact absurd rfl hsep
      | cons s0 s2 =>
        have hs0 : s0 ≠ '&' := by
          intro h
          exact hamp (h ▸ List.mem_cons_self s0 s2)
        simp [uptoSep, List.isPrefixOf, hs0]
    rw [hstep]
    rw [splitL_head ['&'] (id ++ '&' :: uptoSep sep p)]
    rw [uptoSep_push ['&'] id ('&' :: uptoSep sep p) (contains_single '&' id h3)
      (noStraddleChar '&' id ('&' :: uptoSep sep p) h3)]
    have hzap : uptoSep ['&'] ('&' :: uptoSep sep p) = [] := by
      simp [uptoSep, List.isPrefixOf]
    rw [hzap, List.append_nil]

theorem cutPathQuery_id (id post : List Char) (h3 : '/' ∉ id) (h4 : '?' ∉ id)
    (h5 : post = [] ∨ (∃ p, post = '/' :: p) ∨ (∃ p, post = '?' :: p)) :
    cutPathQuery (id ++ post) = id := by
  have hslash : containsSeq "/".toList id = false := contains_single '/' id h3
  have hq : containsSeq "?".toList id = false := contains_single '?' id h4
  simp only [cutPathQuery, pySplitGet]
  rw [splitL_head "/".toList (id ++ post)]
  rcases h5 with h5 | ⟨p, rfl⟩ | ⟨p, rfl⟩
  · subst h5
    rw [List.append_nil, uptoSep_all "/".toList id hslash,
      splitL_head "?".toList id, uptoSep_all "?".toList id hq]
  · rw [uptoSep_push "/".toList id ('/' :: p) hslash
      (noStraddleChar '/' id ('/' :: p) h3)]
    have hzap : uptoSep "/".toList ('/' :: p) = [] := by
      simp [uptoSep, List.isPrefixOf]
    rw [hzap, List.append_nil,
      splitL_head "?".toList id, uptoSep_all "?".toList id hq]
  · rw [uptoSep_push "/".toList id ('?' :: p) hslash
      (noStraddleChar '/' id ('?' :: p) h3)]
    have hstep : uptoSep "/".toList ('?' :: p) = '?' :: uptoSep "/".toList p := by
      simp [uptoSep, List.isPrefixOf]
    rw [hstep]
    rw [splitL_head "?".toList (id ++ '?' :: uptoSep "/".toList p)]
    rw [uptoSep_push "?".toList id ('?' :: uptoSep "/".toList p) hq
      (noStraddleChar '?' id _ h4)]
    have hzap : uptoSep "?".toList ('?' :: uptoSep "/".toList p) = [] := by
      simp [uptoSep, List.isPrefixOf]
    rw [hzap, List.append_nil]

/-- Claim C7, counterexample: the claim says an input containing the
marker `/channel/` followed by an identifier has exactly that identifier
extracted, but the code only recognises the marker
`youtube.com/channel/`; on `"example.org/channel/UCabc"` it falls
through to the network handle-resolution path and (with the resolver
failing) returns `none`, not `some "UCabc"`. -/
theorem channel_marker_counterexample :
    extract_channel_id resolveNone "example.org/channel/UCabc" = none ∧
    (none : Option String) ≠ some "UCabc" := by
  constructor
  · decide
  · decide

/-- Claim C7 as amended: for every input built as prefix, marker,
identifier, delimiter-led tail, where the marker (`v=`, `list=`, or, for
channels, `youtube.com/channel/` rather than the claimed bare
`/channel/`) first occurs at the marked position and the identifier
contains no marker and no delimiter (`&` for the query markers, `/` and
`?` for the channel path), the normalizer extracts exactly the
identifier; the channel extraction uses no network (the conclusion holds
for every resolver).  For input strings containing no marker the video
and playlist normalizers return the input unchanged. -/
theorem normalizer_marker_extraction :
    (∀ (pre id post : List Char),
        containsSeq "v=".toList ((pre ++ "v=".toList).dropLast) = false →
        containsSeq "v=".toList id = false →
        '&' ∉ id →
        (post = [] ∨ ∃ p, post = '&' :: p) →
        extract_video_id (String.mk (pre ++ "v=".toList ++ id ++ post)) = String.mk id) ∧
    (∀ (pre id post : List Char),
        containsSeq "list=".toList ((pre ++ "list=".toList).dropLast) = false →
        containsSeq "list=".toList id = false →
        '&' ∉ id →
        (post = [] ∨ ∃ p, post = '&' :: p) →
        extract_playlist_id (String.mk (pre ++ "list=".toList ++ id ++ post)) = String.mk id) ∧
    (∀ (resolve : String → Option String) (pre id post : List Char),
        (pyStartsWith (String.mk (pre ++ "youtube.com/channel/".toList ++ id ++ post)) "UC" &&
          ((String.mk (pre ++ "youtube.com/channel/".toList ++ id ++ post)).toList.length == 24))
            = false →
        containsSeq "youtube.com/channel/".toList
          ((pre ++ "youtube.com/channel/".toList).dropLast) = false →
        containsSeq "youtube.com/channel/".toList (id ++ post) = false →
        '/' ∉ id → '?' ∉ id →
        (post = [] ∨ (∃ p, post = '/' :: p) ∨ (∃ p, post = '?' :: p)) →
        extract_channel_id resolve
            (String.mk (pre ++ "youtube.com/channel/".toList ++ id ++ post)) =
          some (String.mk id)) ∧
    (∀ s : String, pyIn "v=" s = false → extract_video_id s = s) ∧
    (∀ s : String, pyIn "list=" s = false → extract_playlist_id s = s) := by
  refine ⟨?_, ?_, ?_, ?_, ?_⟩
  · intro pre id post h1 h2 h3 h4
    have hin : pyIn "v=" (String.mk (pre ++ "v=".toList ++ id ++ post)) = true := by
      show containsSeq "v=".toList (pre ++ "v=".toList ++ id ++ post) = true
      have hassoc : pre ++ "v=".toList ++ id ++ post = pre ++ "v=".toList ++ (id ++ post) := by
        simp [List.append_assoc]
      rw [hassoc]
      exact contains_of_decomp "v=".toList pre (id ++ post) (by decide)
    simp only [extract_video_id]
    rw [if_pos hin]
    congr 1
    exact marker_extract "v=".toList (by decide) (by decide) pre id post h1 h2 h3 h4
  · intro pre id post h1 h2 h3 h4
    have hin : pyIn "list=" (String.mk (pre ++ "list=".toList ++ id ++ post)) = true := by
      show containsSeq "list=".toList (pre ++ "list=".toList ++ id ++ post) = true
      have hassoc : pre ++ "list=".toList ++ id ++ post =
          pre ++ "list=".toList ++ (id ++ post) := by
        simp [List.append_assoc]
      rw [hassoc]
      exact contains_of_decomp "list=".toList pre (id ++ post) (by decide)
    simp only [extract_playlist_id]
    rw [if_pos hin]
    congr 1
    exact marker_extract "list=".toList (by decide) (by decide) pre id post h1 h2 h3 h4
  · intro resolve pre id post hUC h1 h2 h3 h4 h5
    have hin : pyIn "youtube.com/channel/"
        (String.mk (pre ++ "youtube.com/channel/".toList ++ id ++ post)) = true := by
      show containsSeq "youtube.com/channel/".toList
        (pre ++ "youtube.com/channel/".toList ++ id ++ post) = true
      have hassoc : pre ++ "youtube.com/channel/".toList ++ id ++ post =
          pre ++ "youtube.com/channel/".toList ++ (id ++ post) := by
        simp [List.append_assoc]
      rw [hassoc]
      exact contains_of_decomp "youtube.com/channel/".toList pre (id ++ post) (by decide)
    have hnot : ¬ ((pyStartsWith
        (String.mk (pre ++ "youtube.com/channel/".toList ++ id ++ post)) "UC" &&
        ((String.mk (pre ++ "youtube.com/channel/".toList ++ id ++ post)).toList.length == 24))
          = true) := by
      rw [hUC]
      exact Bool.false_ne_true
    simp only [extract_channel_id]
    rw [if_neg hnot, if_pos hin]
    have hsplit : pySplitGet "youtube.com/channel/"
        (String.mk (pre ++ "youtube.com/channel/".toList ++ id ++ post)).toList 1 =
        id ++ post := by
      show (pySplitL "youtube.com/channel/".toList
        (pre ++ "youtube.com/channel/".toList ++ id ++ post)).getD 1 [] = id ++ post
      have hassoc : pre ++ "youtube.com/channel/".toList ++ id ++ post =
          pre ++ "youtube.com/channel/".toList ++ (id ++ post) := by
        simp [List.append_assoc]
      rw [hassoc, splitL_decomp "youtube.com/channel/".toList (by decide) pre (id ++ post) h1]
      show (pySplitL "youtube.com/channel/".toList (id ++ post)).getD 0 [] = id ++ post
      rw [splitL_head]
      exact uptoSep_all "youtube.com/channel/".toList (id ++ post) h2
    rw [hsplit, cutPathQuery_id id post h3 h4 h5]
  · intro s h
    simp [extract_video_id, h]
  · intro s h
    simp [extract_playlist_id, h]

/-- Witness for C7 at concrete URLs. -/
theorem normalizer_marker_extraction_witness :
    extract_video_id "https://www.youtube.com/watch?v=dQw4w9WgXcQ&t=42" = "dQw4w9WgXcQ" ∧
    extract_channel_id resolveNone
        "https://www.youtube.com/channel/UCX6OQ3DkcsbYNE6H8uQQuVA?sub=1" =
      some "UCX6OQ3DkcsbYNE6H8uQQuVA" ∧
    extract_playlist_id "PLabc123" = "PLabc123" := by
  refine ⟨?_, ?_, ?_⟩
  · exact normalizer_marker_extraction.1 "https://www.youtube.com/watch?".toList
      "dQw4w9WgXcQ".toList "&t=42".toList (by decide) (by decide) (by decide)
      (Or.inr ⟨"t=42".toList, rfl⟩)
  · exact normalizer_marker_extraction.2.2.1 resolveNone "https://www.".toList
      "UCX6OQ3DkcsbYNE6H8uQQuVA".toList "?sub=1".toList (by decide) (by decide) (by decide)
      (by decide) (by decide) (Or.inr (Or.inr ⟨"sub=1".toList, rfl⟩))
  · exact normalizer_marker_extraction.2.2.2.2 "PLabc123" (by decide)
